import Mathlib

/-!
Shallow embedding of the album editor core of the ZFamily-memories
repository, together with proofs about its specification claims.

The embedding follows the TypeScript source:
- src/src/contexts/AlbumContext.tsx  (data model and editing state store)
- src/src/lib/layoutUtils.ts         (layout template engine)
- src/src/lib/normalization.ts       (page data normalizer)
- src/src/components/editor/EditorCanvas.tsx (snap engine, findSnappingPoints)

Conventions:
- JavaScript numbers become rationals (coordinates) or integers (zIndex);
  page counters become naturals.
- crypto.randomUUID() calls are threaded in as explicit identifier
  arguments, so operations are deterministic functions of their inputs.
- new Date() timestamps are threaded in as an explicit natural number
  argument called now.
- React useState state is collected in one EditorState record; the
  setAlbum callback of the provider becomes commitAlbum.
-/

/-- Asset variant tag, from the Asset interface of AlbumContext.tsx. -/
inductive AssetType where
  | image | video | ribbon | frame | text | sticker | shape
deriving DecidableEq, Repr

/-- Fit mode of an asset inside its frame, from AlbumContext.tsx. -/
inductive FitMode where
  | fit | fill | original | cover | stretch
deriving DecidableEq, Repr

/-- Crop sub-object of an asset, from AlbumContext.tsx. -/
structure Crop where
  x : ℚ
  y : ℚ
  width : ℚ
  height : ℚ
  zoom : ℚ
deriving DecidableEq, Repr

/-- One visual element on a page, from the Asset interface of
AlbumContext.tsx.  Optional cosmetic fields that no modelled operation
reads or writes (clip points, AI effects, most photo filters, text
shadow and decoration) are omitted; every field touched by a modelled
operation is present. -/
structure Asset where
  id : String
  type : AssetType
  url : String
  x : ℚ
  y : ℚ
  width : ℚ
  height : ℚ
  rotation : ℚ
  scale : Option ℚ := none
  zIndex : ℤ
  slotId : Option ℕ := none
  flipX : Option Bool := none
  flipY : Option Bool := none
  opacity : Option ℚ := none
  aspectRatio : Option ℚ := none
  lockAspectRatio : Option Bool := none
  pivot : Option (ℚ × ℚ) := none
  isPlaceholder : Option Bool := none
  fitMode : Option FitMode := none
  filter : Option String := none
  filterIntensity : Option ℚ := none
  content : Option String := none
  fontFamily : Option String := none
  fontSize : Option ℚ := none
  fontWeight : Option String := none
  color : Option String := none
  borderRadius : Option ℚ := none
  borderColor : Option String := none
  borderWidth : Option ℚ := none
  crop : Option Crop := none
  isHidden : Option Bool := none
  isStamp : Option Bool := none
deriving DecidableEq, Repr

/-- Partial update of an Asset (the Partial Asset argument of
updateAsset in AlbumContext.tsx).  A field that is none is absent from
the update object and keeps the previous value; a field that is some v
overwrites it, exactly as the spread in a JavaScript object literal. -/
structure AssetUpdate where
  id : Option String := none
  type : Option AssetType := none
  url : Option String := none
  x : Option ℚ := none
  y : Option ℚ := none
  width : Option ℚ := none
  height : Option ℚ := none
  rotation : Option ℚ := none
  scale : Option ℚ := none
  zIndex : Option ℤ := none
  slotId : Option ℕ := none
  flipX : Option Bool := none
  flipY : Option Bool := none
  opacity : Option ℚ := none
  aspectRatio : Option ℚ := none
  lockAspectRatio : Option Bool := none
  pivot : Option (ℚ × ℚ) := none
  isPlaceholder : Option Bool := none
  fitMode : Option FitMode := none
  filter : Option String := none
  filterIntensity : Option ℚ := none
  content : Option String := none
  fontFamily : Option String := none
  fontSize : Option ℚ := none
  fontWeight : Option String := none
  color : Option String := none
  borderRadius : Option ℚ := none
  borderColor : Option String := none
  borderWidth : Option ℚ := none
  crop : Option Crop := none
  isHidden : Option Bool := none
  isStamp : Option Bool := none
deriving DecidableEq, Repr

/-- The JavaScript object spread of an AssetUpdate over an Asset. -/
def Asset.merge (a : Asset) (u : AssetUpdate) : Asset :=
  { id := u.id.getD a.id
    type := u.type.getD a.type
    url := u.url.getD a.url
    x := u.x.getD a.x
    y := u.y.getD a.y
    width := u.width.getD a.width
    height := u.height.getD a.height
    rotation := u.rotation.getD a.rotation
    scale := u.scale.or a.scale
    zIndex := u.zIndex.getD a.zIndex
    slotId := u.slotId.or a.slotId
    flipX := u.flipX.or a.flipX
    flipY := u.flipY.or a.flipY
    opacity := u.opacity.or a.opacity
    aspectRatio := u.aspectRatio.or a.aspectRatio
    lockAspectRatio := u.lockAspectRatio.or a.lockAspectRatio
    pivot := u.pivot.or a.pivot
    isPlaceholder := u.isPlaceholder.or a.isPlaceholder
    fitMode := u.fitMode.or a.fitMode
    filter := u.filter.or a.filter
    filterIntensity := u.filterIntensity.or a.filterIntensity
    content := u.content.or a.content
    fontFamily := u.fontFamily.or a.fontFamily
    fontSize := u.fontSize.or a.fontSize
    fontWeight := u.fontWeight.or a.fontWeight
    color := u.color.or a.color
    borderRadius := u.borderRadius.or a.borderRadius
    borderColor := u.borderColor.or a.borderColor
    borderWidth := u.borderWidth.or a.borderWidth
    crop := u.crop.or a.crop
    isHidden := u.isHidden.or a.isHidden
    isStamp := u.isStamp.or a.isStamp }

/-- Length unit of the album page dimensions, from AlbumConfig. -/
inductive LengthUnit where
  | px | inch | cm
deriving DecidableEq, Repr

/-- Page dimension block of AlbumConfig, from AlbumContext.tsx. -/
structure Dimensions where
  width : ℚ
  height : ℚ
  unit : LengthUnit
  bleed : ℚ
  gutter : ℚ
deriving DecidableEq, Repr

/-- Grid settings block of AlbumConfig, from AlbumContext.tsx. -/
structure GridSettings where
  size : ℚ
  snap : Bool
  visible : Bool
deriving DecidableEq, Repr

/-- Album configuration, from the AlbumConfig interface. -/
structure AlbumConfig where
  dimensions : Dimensions
  useSpreadView : Bool
  gridSettings : GridSettings
  styleSync : Option Bool := none
  isLocked : Option Bool := none
deriving DecidableEq, Repr

/-- Truthiness of the optional isLocked flag, as tested by the guards
of the store operations (if album.config.isLocked ...). -/
def AlbumConfig.locked (c : AlbumConfig) : Bool :=
  c.isLocked.getD false

/-- One side of the album, from the Page interface of AlbumContext.tsx. -/
structure Page where
  id : String
  pageNumber : ℕ
  layoutTemplate : String
  assets : List Asset
  backgroundColor : String
  backgroundOpacity : Option ℚ := none
  backgroundImage : Option String := none
  name : Option String := none
deriving DecidableEq, Repr

/-- Partial update of a Page (the Partial Page argument of updatePage). -/
structure PageUpdate where
  id : Option String := none
  pageNumber : Option ℕ := none
  layoutTemplate : Option String := none
  assets : Option (List Asset) := none
  backgroundColor : Option String := none
  backgroundOpacity : Option ℚ := none
  backgroundImage : Option String := none
  name : Option String := none
deriving DecidableEq, Repr

/-- The JavaScript object spread of a PageUpdate over a Page. -/
def Page.merge (p : Page) (u : PageUpdate) : Page :=
  { id := u.id.getD p.id
    pageNumber := u.pageNumber.getD p.pageNumber
    layoutTemplate := u.layoutTemplate.getD p.layoutTemplate
    assets := u.assets.getD p.assets
    backgroundColor := u.backgroundColor.getD p.backgroundColor
    backgroundOpacity := u.backgroundOpacity.or p.backgroundOpacity
    backgroundImage := u.backgroundImage.or p.backgroundImage
    name := u.name.or p.name }

/-- The aggregate root, from the Album interface of AlbumContext.tsx.
The createdAt and updatedAt Date fields are modelled as natural-number
ticks; geotag is kept as an optional pair. -/
structure Album where
  id : String
  family_id : String
  title : String
  description : Option String := none
  category : Option String := none
  coverUrl : Option String := none
  pages : List Page
  unplacedMedia : List Asset
  hashtags : List String
  config : AlbumConfig
  createdAt : ℕ
  updatedAt : ℕ
  isPublished : Bool
  location : Option String := none
  country : Option String := none
  geotag : Option (ℚ × ℚ) := none
deriving DecidableEq, Repr

/-- Partial update of an AlbumConfig (argument of updateConfig). -/
structure ConfigUpdate where
  dimensions : Option Dimensions := none
  useSpreadView : Option Bool := none
  gridSettings : Option GridSettings := none
  styleSync : Option Bool := none
  isLocked : Option Bool := none
deriving DecidableEq, Repr

/-- The JavaScript object spread of a ConfigUpdate over an AlbumConfig. -/
def AlbumConfig.merge (c : AlbumConfig) (u : ConfigUpdate) : AlbumConfig :=
  { dimensions := u.dimensions.getD c.dimensions
    useSpreadView := u.useSpreadView.getD c.useSpreadView
    gridSettings := u.gridSettings.getD c.gridSettings
    styleSync := u.styleSync.or c.styleSync
    isLocked := u.isLocked.or c.isLocked }

/-- The React state of AlbumProvider that the claims are about: the
album aggregate, the undo history, the redo stack, the current page
index and the selected asset id. -/
structure EditorState where
  album : Option Album
  history : List Album
  redoStack : List Album
  currentPageIndex : ℕ
  selectedAssetId : Option String
deriving DecidableEq, Repr

/-- The last n elements of a list: the JavaScript slice with a negative
start index, h.slice(-19). -/
def lastN (n : ℕ) (l : List α) : List α :=
  l.drop (l.length - n)

/-- The setAlbum callback of AlbumProvider applied to a freshly built
album object: when the previous album exists the previous reference is
pushed onto the history (bounded to 20 entries by h.slice(-19) plus the
new entry) and the redo stack is cleared.  Every store operation builds
a new object literal, so the reference comparison prev !== resolved of
the source is true whenever the previous album exists. -/
def commitAlbum (s : EditorState) (a : Album) : EditorState :=
  match s.album with
  | some prev =>
      { s with
        album := some a
        history := lastN 19 s.history ++ [prev]
        redoStack := [] }
  | none => { s with album := some a }

/-- The undo callback of AlbumProvider. -/
def undo (s : EditorState) : EditorState :=
  match s.history.getLast? with
  | none => s
  | some previous =>
      { s with
        album := some previous
        history := s.history.dropLast
        redoStack :=
          match s.album with
          | some current => s.redoStack ++ [current]
          | none => s.redoStack }

/-- The redo callback of AlbumProvider. -/
def redo (s : EditorState) : EditorState :=
  match s.redoStack.getLast? with
  | none => s
  | some next =>
      { s with
        album := some next
        redoStack := s.redoStack.dropLast
        history :=
          match s.album with
          | some current => s.history ++ [current]
          | none => s.history }

/-- newPages.map((p, i) => ({ ...p, pageNumber: i + 1 })) starting from
index start. -/
def renumberFrom : ℕ → List Page → List Page
  | _, [] => []
  | n, p :: ps => { p with pageNumber := n + 1 } :: renumberFrom (n + 1) ps

/-- The renumbering map applied by every page-structural operation. -/
def renumber (ps : List Page) : List Page :=
  renumberFrom 0 ps

/-- JavaScript array splice insertion arr.splice(n, 0, x): inserts x at
index n, appending at the end when n exceeds the length. -/
def insertAt (n : ℕ) (x : α) (l : List α) : List α :=
  l.take n ++ x :: l.drop n

/-- addPage from AlbumContext.tsx: inserts a pair of blank pages before
the back cover (or at the end), renumbers, and focuses the insertion
point.  id1 and id2 stand for the two generateId() calls. -/
def addPage (s : EditorState) (now : ℕ) (id1 id2 : String)
    (template : String := "freeform") : EditorState :=
  match s.album with
  | none => s
  | some album =>
    if album.config.locked then s else
    let backCoverIndex := album.pages.findIdx? (fun p => p.layoutTemplate = "cover-back")
    let insertIndex := backCoverIndex.getD album.pages.length
    let newPage1 : Page :=
      { id := id1, pageNumber := insertIndex + 1, layoutTemplate := template
        assets := [], backgroundColor := "#ffffff" }
    let newPage2 : Page :=
      { id := id2, pageNumber := insertIndex + 2, layoutTemplate := template
        assets := [], backgroundColor := "#ffffff" }
    let newPages := album.pages.take insertIndex ++ [newPage1, newPage2]
      ++ album.pages.drop insertIndex
    let s' := commitAlbum s
      { album with pages := renumber newPages, updatedAt := now }
    { s' with currentPageIndex := insertIndex }

/-- removePage from AlbumContext.tsx. -/
def removePage (s : EditorState) (now : ℕ) (pageId : String) : EditorState :=
  match s.album with
  | none => s
  | some album =>
    if album.pages.length ≤ 1 ∨ album.config.locked then s else
    let newPages := album.pages.filter (fun p => p.id ≠ pageId)
    let s' := commitAlbum s
      { album with pages := renumber newPages, updatedAt := now }
    { s' with currentPageIndex := s.currentPageIndex - 1 }

/-- updatePage from AlbumContext.tsx. -/
def updatePage (s : EditorState) (now : ℕ) (pageId : String)
    (updates : PageUpdate) : EditorState :=
  match s.album with
  | none => s
  | some album =>
    if album.config.locked then s else
    commitAlbum s
      { album with
        pages := album.pages.map (fun p => if p.id = pageId then p.merge updates else p)
        updatedAt := now }

/-- addAsset from AlbumContext.tsx.  newId stands for generateId(). -/
def addAsset (s : EditorState) (now : ℕ) (newId : String) (pageId : String)
    (asset : Asset) : EditorState :=
  match s.album with
  | none => s
  | some album =>
    if album.config.locked then s else
    let newAsset : Asset := { asset with id := newId }
    let s' := commitAlbum s
      { album with
        pages := album.pages.map (fun p =>
          if p.id = pageId then { p with assets := p.assets ++ [newAsset] } else p)
        updatedAt := now }
    { s' with selectedAssetId := some newAsset.id }

/-- updateAsset from AlbumContext.tsx. -/
def updateAsset (s : EditorState) (now : ℕ) (pageId assetId : String)
    (updates : AssetUpdate) : EditorState :=
  match s.album with
  | none => s
  | some album =>
    if album.config.locked then s else
    commitAlbum s
      { album with
        pages := album.pages.map (fun p =>
          if p.id = pageId then
            { p with assets := p.assets.map (fun a =>
                if a.id = assetId then a.merge updates else a) }
          else p)
        updatedAt := now }

/-- removeAsset from AlbumContext.tsx. -/
def removeAsset (s : EditorState) (now : ℕ) (pageId assetId : String) : EditorState :=
  match s.album with
  | none => s
  | some album =>
    if album.config.locked then s else
    let s' := commitAlbum s
      { album with
        pages := album.pages.map (fun p =>
          if p.id = pageId then
            { p with assets := p.assets.filter (fun a => a.id ≠ assetId) }
          else p)
        updatedAt := now }
    if s.selectedAssetId = some assetId then { s' with selectedAssetId := none } else s'

/-- duplicateAsset from AlbumContext.tsx.  newId stands for generateId(). -/
def duplicateAsset (s : EditorState) (now : ℕ) (newId : String)
    (pageId assetId : String) : EditorState :=
  match s.album with
  | none => s
  | some album =>
    if album.config.locked then s else
    match (album.pages.find? (fun p => p.id = pageId)).bind
        (fun page => page.assets.find? (fun a => a.id = assetId)) with
    | none => s
    | some sourceAsset =>
      let newAsset : Asset :=
        { sourceAsset with
          id := newId
          x := sourceAsset.x + 20
          y := sourceAsset.y + 20
          zIndex := sourceAsset.zIndex + 1 }
      let s' := commitAlbum s
        { album with
          pages := album.pages.map (fun p =>
            if p.id = pageId then { p with assets := p.assets ++ [newAsset] } else p)
          updatedAt := now }
      { s' with selectedAssetId := some newAsset.id }

/-- Direction argument of updateAssetZIndex. -/
inductive ZDirection where
  | front | back
deriving DecidableEq, Repr

/-- Math.max(...l, 0): the maximum of a list of integers and 0. -/
def listMaxZ (l : List ℤ) : ℤ := l.foldr max 0

/-- Math.min(...l, 0): the minimum of a list of integers and 0. -/
def listMinZ (l : List ℤ) : ℤ := l.foldr min 0

/-- updateAssetZIndex from AlbumContext.tsx: computes the new zIndex
from the maximum or minimum zIndex on the page (with 0 included in the
spread of Math.max and Math.min) and delegates to updateAsset. -/
def updateAssetZIndex (s : EditorState) (now : ℕ) (pageId assetId : String)
    (direction : ZDirection) : EditorState :=
  match s.album with
  | none => s
  | some album =>
    if album.config.locked then s else
    match album.pages.find? (fun p => p.id = pageId) with
    | none => s
    | some page =>
      match page.assets.find? (fun a => a.id = assetId) with
      | none => s
      | some _ =>
        let maxZ := listMaxZ (page.assets.map (fun a => a.zIndex))
        let minZ := listMinZ (page.assets.map (fun a => a.zIndex))
        let newZIndex := match direction with
          | .front => maxZ + 1
          | .back => minZ - 1
        updateAsset s now pageId assetId { zIndex := some newZIndex }

/-- uploadMedia from AlbumContext.tsx, with the per-file compression,
storage upload and media-library logging abstracted away: uploaded is
the list of assets the upload loop produced.  The store effect is the
functional setAlbum appending them to unplacedMedia. -/
def uploadMedia (s : EditorState) (now : ℕ) (uploaded : List Asset) : EditorState :=
  match s.album with
  | none => s
  | some album =>
    if album.config.locked then s else
    commitAlbum s
      { album with
        unplacedMedia := album.unplacedMedia ++ uploaded
        updatedAt := now }

/-- addMediaByUrl from AlbumContext.tsx (database logging abstracted).
newId stands for generateId(). -/
def addMediaByUrl (s : EditorState) (now : ℕ) (newId : String) (url : String)
    (type : AssetType) : EditorState :=
  match s.album with
  | none => s
  | some album =>
    if album.config.locked then s else
    let newAsset : Asset :=
      { id := newId, type := type, url := url, x := 0, y := 0,
        width := 400, height := 300, rotation := 0, zIndex := 1 }
    commitAlbum s
      { album with
        unplacedMedia := album.unplacedMedia ++ [newAsset]
        updatedAt := now }

/-- moveFromLibrary from AlbumContext.tsx. -/
def moveFromLibrary (s : EditorState) (now : ℕ) (assetId pageId : String) : EditorState :=
  match s.album with
  | none => s
  | some album =>
    if album.config.locked then s else
    match album.unplacedMedia.find? (fun a => a.id = assetId) with
    | none => s
    | some asset =>
      commitAlbum s
        { album with
          unplacedMedia := album.unplacedMedia.filter (fun a => a.id ≠ assetId)
          pages := album.pages.map (fun p =>
            if p.id = pageId then
              { p with assets := p.assets ++ [{ asset with x := 50, y := 50 }] }
            else p)
          updatedAt := now }

/-- applyLayout from AlbumContext.tsx (the store operation only sets the
layout template name of the page). -/
def applyLayout (s : EditorState) (now : ℕ) (pageId template : String) : EditorState :=
  match s.album with
  | none => s
  | some album =>
    if album.config.locked then s else
    commitAlbum s
      { album with
        pages := album.pages.map (fun p =>
          if p.id = pageId then { p with layoutTemplate := template } else p)
        updatedAt := now }

/-- Fresh asset ids for a duplicated page, one generateId() per asset. -/
def reassignIds (gen : ℕ → String) : ℕ → List Asset → List Asset
  | _, [] => []
  | n, a :: as_ => { a with id := gen n } :: reassignIds gen (n + 1) as_

/-- duplicatePage from AlbumContext.tsx.  newPageId stands for the page
generateId() call and gen for the per-asset generateId() calls. -/
def duplicatePage (s : EditorState) (now : ℕ) (newPageId : String)
    (gen : ℕ → String) (pageId : String) : EditorState :=
  match s.album with
  | none => s
  | some album =>
    if album.config.locked then s else
    match album.pages.find? (fun p => p.id = pageId) with
    | none => s
    | some pageToDuplicate =>
      let newPage : Page :=
        { pageToDuplicate with
          id := newPageId
          pageNumber := album.pages.length + 1
          assets := reassignIds gen 0 pageToDuplicate.assets }
      let pageIndex := (album.pages.findIdx? (fun p => p.id = pageId)).getD 0
      let newPages := insertAt (pageIndex + 1) newPage album.pages
      let s' := commitAlbum s
        { album with pages := renumber newPages, updatedAt := now }
      { s' with currentPageIndex := pageIndex + 1 }

/-- Direction argument of movePage. -/
inductive MoveDirection where
  | left | right
deriving DecidableEq, Repr

/-- movePage from AlbumContext.tsx: swaps the page one slot left or
right, never moving a cover and never moving into a cover slot. -/
def movePage (s : EditorState) (now : ℕ) (pageId : String)
    (direction : MoveDirection) : EditorState :=
  match s.album with
  | none => s
  | some album =>
    if album.config.locked then s else
    match album.pages.findIdx? (fun p => p.id = pageId) with
    | none => s
    | some currentIndex =>
      if currentIndex = 0 ∨ currentIndex = album.pages.length - 1 then s else
      let newIndex := match direction with
        | .left => currentIndex - 1
        | .right => currentIndex + 1
      if newIndex = 0 ∨ album.pages.length - 1 ≤ newIndex then s else
      match album.pages.get? currentIndex with
      | none => s
      | some movedPage =>
        let newPages := insertAt newIndex movedPage (album.pages.eraseIdx currentIndex)
        let s' := commitAlbum s
          { album with pages := renumber newPages, updatedAt := now }
        { s' with currentPageIndex := newIndex }

/-- The degenerate page produced by reorderPages when fromIndex is out
of range: the JavaScript splice returns undefined, the spread of
undefined yields an empty object, and the renumbering map then stamps a
page number onto it; every other property reads as undefined. -/
def degeneratePage : Page :=
  { id := "", pageNumber := 0, layoutTemplate := "", assets := [],
    backgroundColor := "" }

/-- reorderPages from AlbumContext.tsx: moves the page at fromIndex to
the clamped toIndex, refusing to move the covers.  Indices are the
natural numbers the drag-and-drop UI produces. -/
def reorderPages (s : EditorState) (now : ℕ) (fromIndex toIndex : ℕ) : EditorState :=
  match s.album with
  | none => s
  | some album =>
    if album.config.locked then s else
    if fromIndex = 0 ∨ fromIndex = album.pages.length - 1 then s else
    let safe1 := if toIndex = 0 then 1 else toIndex
    let safeToIndex := if album.pages.length - 1 ≤ safe1 then album.pages.length - 2 else safe1
    match album.pages.get? fromIndex with
    | some movedPage =>
      let newPages := insertAt safeToIndex movedPage (album.pages.eraseIdx fromIndex)
      commitAlbum s { album with pages := renumber newPages, updatedAt := now }
    | none =>
      let newPages := insertAt safeToIndex degeneratePage album.pages
      commitAlbum s { album with pages := renumber newPages, updatedAt := now }

/-- updateConfig from AlbumContext.tsx. -/
def updateConfig (s : EditorState) (now : ℕ) (updates : ConfigUpdate) : EditorState :=
  match s.album with
  | none => s
  | some album =>
    if album.config.locked then s else
    commitAlbum s
      { album with config := album.config.merge updates, updatedAt := now }

/-- updatePageAssets from AlbumContext.tsx (functional setAlbum: when
the album is missing or locked the previous reference is returned and
no history entry is pushed). -/
def updatePageAssets (s : EditorState) (now : ℕ) (pageId : String)
    (newAssets : List Asset) : EditorState :=
  match s.album with
  | none => s
  | some album =>
    if album.config.locked then s else
    commitAlbum s
      { album with
        pages := album.pages.map (fun p =>
          if p.id = pageId then { p with assets := newAssets } else p)
        updatedAt := now }

/-- moveAssetToPage from AlbumContext.tsx (functional setAlbum): looks
up the asset on the source page, removes it there and appends it with
the new coordinates to the destination page, in one state transition. -/
def moveAssetToPage (s : EditorState) (now : ℕ) (assetId fromPageId toPageId : String)
    (newX newY : ℚ) : EditorState :=
  match s.album with
  | none => s
  | some album =>
    if album.config.locked then s else
    match (album.pages.find? (fun p => p.id = fromPageId)).bind
        (fun fromPage => fromPage.assets.find? (fun a => a.id = assetId)) with
    | none => s
    | some asset =>
      commitAlbum s
        { album with
          pages := album.pages.map (fun p =>
            if p.id = fromPageId then
              { p with assets := p.assets.filter (fun a => a.id ≠ assetId) }
            else if p.id = toPageId then
              { p with assets := p.assets ++ [{ asset with x := newX, y := newY }] }
            else p)
          updatedAt := now }

/-- The style fields syncStyles copies from the source asset. -/
def syncTargetStyles (src : Asset) : AssetUpdate :=
  { borderRadius := src.borderRadius
    borderColor := src.borderColor
    borderWidth := src.borderWidth
    filter := src.filter
    filterIntensity := src.filterIntensity
    fontFamily := src.fontFamily
    fontSize := src.fontSize
    fontWeight := src.fontWeight
    color := src.color
    opacity := src.opacity }

/-- syncStyles from AlbumContext.tsx: copies the key visual properties
of the source asset onto every asset of the same type on every page.
With no source asset the type comparison never succeeds and the album
is committed unchanged apart from the updatedAt stamp. -/
def syncStyles (s : EditorState) (now : ℕ) (sourceAsset : Option Asset) : EditorState :=
  match s.album with
  | none => s
  | some album =>
    if album.config.locked then s else
    commitAlbum s
      { album with
        pages := album.pages.map (fun p =>
          { p with assets := p.assets.map (fun a =>
              match sourceAsset with
              | some src => if a.type = src.type then a.merge (syncTargetStyles src) else a
              | none => a) })
        updatedAt := now }

/-- toggleLock from AlbumContext.tsx (database write abstracted): flips
the isLocked flag through the optimistic functional setAlbum.  This is
the one config mutation that works while the album is locked. -/
def toggleLock (s : EditorState) (now : ℕ) : EditorState :=
  match s.album with
  | none => s
  | some album =>
    commitAlbum s
      { album with
        config := { album.config with isLocked := some (!album.config.locked) }
        updatedAt := now }

/-- One slot of a layout template.  The record shape comes from the
LayoutConfig type of src/data/defaultLayouts.ts as used by
layoutUtils.ts: x or legacy left, y or legacy top, width, height,
optional rotation and a z_index. -/
structure LayoutSlot where
  x : Option ℚ := none
  left : Option ℚ := none
  y : Option ℚ := none
  top : Option ℚ := none
  width : ℚ
  height : ℚ
  rotation : Option ℚ := none
  z_index : ℤ
deriving DecidableEq, Repr

/-- A named layout template, from the AlbumLayout type of
src/data/defaultLayouts.ts as used by layoutUtils.ts. -/
structure AlbumLayout where
  name : String
  is_spread : Bool
  config : List LayoutSlot
deriving DecidableEq, Repr

/-- createPlaceholder from layoutUtils.ts.  id stands for generateId(). -/
def createPlaceholder (id : String) (zIndex : ℤ) : Asset :=
  { id := id
    type := .image
    url := ""
    x := 0
    y := 0
    width := 100
    height := 100
    rotation := 0
    zIndex := zIndex
    isPlaceholder := some true
    fitMode := some FitMode.cover
    opacity := some 100
    flipX := some false
    flipY := some false
    lockAspectRatio := some false
    scale := some 1
    borderWidth := some 0 }

/-- updateAssetPosition from layoutUtils.ts: stamps the slot frame onto
the asset, forces cover fit, clears the crop and resets the scale. -/
def updateAssetPosition (asset : Asset) (slot : LayoutSlot) : Asset :=
  { asset with
    x := (slot.x.or slot.left).getD 0
    y := (slot.y.or slot.top).getD 0
    width := slot.width
    height := slot.height
    rotation := slot.rotation.getD 0
    zIndex := slot.z_index
    fitMode := some FitMode.cover
    crop := none
    lockAspectRatio := some false
    scale := some 1 }

/-- One page update produced by the layout template engine, from the
LayoutUpdate interface of layoutUtils.ts. -/
structure LayoutUpdate where
  pageId : String
  assets : List Asset
  layoutTemplate : String
deriving DecidableEq, Repr

/-- Is the asset image or video media (the filter of layoutUtils.ts)? -/
def isMediaAsset (a : Asset) : Bool :=
  a.type = AssetType.image ∨ a.type = AssetType.video

/-- The slot-filling loop of layoutUtils.ts: slot number n takes the
n-th pooled media asset if one is left and a generated placeholder
otherwise, positioned by updateAssetPosition. -/
def fillSlots (gen : ℕ → String) (media : List Asset) : ℕ → List LayoutSlot → List Asset
  | _, [] => []
  | n, slot :: rest =>
    let asset := match media.get? n with
      | some m => m
      | none => createPlaceholder (gen n) slot.z_index
    updateAssetPosition asset slot :: fillSlots gen media (n + 1) rest

/-- The left/right slot partition of the spread branch: slots with
un-shifted x below 100 are left slots, the rest are shifted by -100 and
become right slots. -/
def splitSpreadSlots (slots : List LayoutSlot) : List LayoutSlot × List LayoutSlot :=
  slots.foldr (fun slot (acc : List LayoutSlot × List LayoutSlot) =>
    let xv := (slot.x.or slot.left).getD 0
    if xv < 100 then (slot :: acc.1, acc.2)
    else
      let shifted := { slot with
        x := slot.x.map (fun q => q - 100)
        left := slot.left.map (fun q => q - 100) }
      (acc.1, shifted :: acc.2)) ([], [])

/-- calculateLayoutApplication from layoutUtils.ts.  gen stands for the
generateId() calls of the placeholder factory, numbered by global slot
position. -/
def calculateLayoutApplication (gen : ℕ → String) (layout : AlbumLayout)
    (leftPage : Option Page) (rightPage : Option Page)
    (targetPageId : Option String) : List LayoutUpdate :=
  match leftPage with
  | none => []
  | some leftPage =>
    if layout.is_spread then
      let parts := splitSpreadSlots layout.config
      let leftSlots := parts.1
      let rightSlots := parts.2
      let leftMedia := leftPage.assets.filter isMediaAsset
      let rightMedia := match rightPage with
        | some rp => rp.assets.filter isMediaAsset
        | none => []
      let allMedia := leftMedia ++ rightMedia
      let leftOther := leftPage.assets.filter (fun a => ¬ isMediaAsset a)
      let rightOther := match rightPage with
        | some rp => rp.assets.filter (fun a => ¬ isMediaAsset a)
        | none => []
      let newLeftAssets := leftOther ++ fillSlots gen allMedia 0 leftSlots
      let leftUpdate : LayoutUpdate :=
        { pageId := leftPage.id, assets := newLeftAssets, layoutTemplate := layout.name }
      match rightPage with
      | none => [leftUpdate]
      | some rp =>
        let newRightAssets := rightOther
          ++ fillSlots (fun n => gen (leftSlots.length + n)) allMedia leftSlots.length rightSlots
        [leftUpdate,
         { pageId := rp.id, assets := newRightAssets, layoutTemplate := layout.name }]
    else
      let targetPage := match targetPageId with
        | none => leftPage
        | some tid =>
          if leftPage.id = tid then leftPage
          else match rightPage with
            | some rp => if rp.id = tid then rp else leftPage
            | none => leftPage
      let currentMedia := targetPage.assets.filter isMediaAsset
      let otherAssets := targetPage.assets.filter (fun a => ¬ isMediaAsset a)
      let newAssets := otherAssets ++ fillSlots gen currentMedia 0 layout.config
      [{ pageId := targetPage.id, assets := newAssets, layoutTemplate := layout.name }]

/-- getSpread from AlbumContext.tsx: resolves which one or two pages
are displayed together at a 0-based page index. -/
def getSpread (album : Album) (pageIndex : ℕ) : List Page :=
  match album.pages[pageIndex]? with
  | none => []
  | some page =>
    if ¬ album.config.useSpreadView then [page]
    else if page.layoutTemplate = "cover-front" then [page]
    else if page.layoutTemplate = "cover-back" then [page]
    else if pageIndex % 2 = 1 then
      match album.pages[pageIndex + 1]? with
      | some nextPage =>
        if nextPage.layoutTemplate ≠ "cover-back" then [page, nextPage] else [page]
      | none => [page]
    else
      match (if pageIndex = 0 then none else album.pages[pageIndex - 1]?) with
      | some prevPage =>
        if prevPage.layoutTemplate ≠ "cover-front" then [prevPage, page] else [page]
      | none => [page]

/-- Guide orientation: a vertical or horizontal alignment line. -/
inductive GuideKind where
  | v | h
deriving DecidableEq, Repr

/-- One alignment guide emitted by the snap engine, from the guide
objects of EditorCanvas.tsx. -/
structure Guide where
  type : GuideKind
  pos : ℚ
deriving DecidableEq, Repr

/-- The page-relative rectangle of the dragged asset. -/
structure DragRect where
  x : ℚ
  y : ℚ
  w : ℚ
  h : ℚ
deriving DecidableEq, Repr

/-- Result of findSnappingPoints. -/
structure SnapResult where
  snappedX : ℚ
  snappedY : ℚ
  guides : List Guide
deriving DecidableEq, Repr

/-- JavaScript Math.round: round half away from zero towards positive
infinity, as used by the deterministic 1 percent baseline snap. -/
def jsRound (q : ℚ) : ℚ :=
  (⌊q + 1/2⌋ : ℤ)

/-- JavaScript Math.abs, written as an executable conditional. -/
def jsAbs (q : ℚ) : ℚ :=
  if q < 0 then -q else q

/-- Math.abs agrees with the mathematical absolute value. -/
theorem jsAbs_eq_abs (q : ℚ) : jsAbs q = |q| := by
  unfold jsAbs
  split
  · next h => exact (abs_of_neg h).symm
  · next h => exact (abs_of_nonneg (not_lt.mp h)).symm

/-- The i-th column boundary of the 12-column grid (column width is
100 / 12 percent of a single page). -/
def colPos (i : ℕ) : ℚ :=
  i * (100 / 12)

/-- One iteration of the 12-column grid loop of findSnappingPoints:
first the left edge is tested against the column boundary (possibly
reassigning snappedX), then the right edge is tested against the same
boundary using the already reassigned snappedX, as in the source. -/
def gridColStep (w : ℚ) (st : ℚ × List Guide) (i : ℕ) : ℚ × List Guide :=
  let c := colPos i
  let st1 := if jsAbs (st.1 - c) < 1 then (c, st.2 ++ [Guide.mk .v c]) else st
  if jsAbs (st1.1 + w - c) < 1 then (c - w, st1.2 ++ [Guide.mk .v c]) else st1

/-- One iteration of the sibling-asset loop of findSnappingPoints: the
dragged left edge is tested against the sibling left edge and the
dragged center against the sibling center, both against the original
(unsnapped) dragged rectangle, as in the source. -/
def siblingStep (r : DragRect) (st : ℚ × List Guide) (t : Asset) : ℚ × List Guide :=
  let st1 := if jsAbs (r.x - t.x) < 1 then (t.x, st.2 ++ [Guide.mk .v t.x]) else st
  let tc := t.x + t.width / 2
  if jsAbs (r.x + r.w / 2 - tc) < 1 then (tc - r.w / 2, st1.2 ++ [Guide.mk .v tc]) else st1

/-- findSnappingPoints from EditorCanvas.tsx.  hasNextPage is the
truthiness of the nextPage prop (spread view); pageAssets are the
assets of the canvas page; draggingId is the id of the dragged asset. -/
def findSnappingPoints (hasNextPage : Bool) (pageAssets : List Asset)
    (draggingId : String) (r : DragRect) : SnapResult :=
  let canvasWidth : ℚ := if hasNextPage then 200 else 100
  let sx0 := jsRound r.x
  let sy0 := jsRound r.y
  let grid := (List.range ((if hasNextPage then 24 else 12) + 1)).foldl
    (gridColStep r.w) (sx0, [])
  let otherAssets := pageAssets.filter
    (fun a => a.id ≠ draggingId ∧ ¬ (a.isHidden.getD false))
  let cx := if jsAbs (r.x + r.w / 2 - 50) < 1
    then ((50 : ℚ) - r.w / 2, grid.2 ++ [Guide.mk .v 50]) else (grid.1, grid.2)
  let cy := if jsAbs (r.y + r.h / 2 - 50) < 1
    then ((50 : ℚ) - r.h / 2, cx.2 ++ [Guide.mk .h 50]) else (sy0, cx.2)
  let b1 := if jsAbs (r.x - 3) < 1
    then ((3 : ℚ), cy.2 ++ [Guide.mk .v 3]) else (cx.1, cy.2)
  let b2 := if jsAbs (r.x + r.w - (canvasWidth - 3)) < 1
    then (canvasWidth - 3 - r.w, b1.2 ++ [Guide.mk .v (canvasWidth - 3)])
    else (b1.1, b1.2)
  let sib := otherAssets.foldl (siblingStep r) (b2.1, b2.2)
  let sp := if hasNextPage ∧ jsAbs (r.x + r.w / 2 - 100) < 1
    then ((100 : ℚ) - r.w / 2, sib.2 ++ [Guide.mk .v 100]) else (sib.1, sib.2)
  { snappedX := sp.1, snappedY := cy.1, guides := sp.2 }

/-- A JavaScript runtime value, as far as normalization.ts inspects
values: undefined, null, booleans, numbers, strings, arrays and plain
objects (an association list of properties; lookup takes the first
binding). -/
inductive JSVal where
  | undefined
  | null
  | bool (b : Bool)
  | num (q : ℚ)
  | str (s : String)
  | arr (xs : List JSVal)
  | obj (fields : List (String × JSVal))

/-- JavaScript truthiness (NaN does not arise in the model). -/
def JSVal.truthy : JSVal → Bool
  | .undefined => false
  | .null => false
  | .bool b => b
  | .num q => q ≠ 0
  | .str s => s ≠ ""
  | .arr _ => true
  | .obj _ => true

/-- Property read on a value that may be null or undefined: a plain
JavaScript member access a.k, which throws a TypeError on null and
undefined and yields undefined on other non-objects. -/
def JSVal.get : JSVal → String → Except String JSVal
  | .undefined, _ => .error "TypeError: cannot read properties of undefined"
  | .null, _ => .error "TypeError: cannot read properties of null"
  | .obj fields, k => .ok ((fields.lookup k).getD .undefined)
  | _, _ => .ok .undefined

/-- Optional-chaining property read a?.k: never throws. -/
def JSVal.getOpt : JSVal → String → JSVal
  | .obj fields, k => (fields.lookup k).getD .undefined
  | _, _ => .undefined

/-- a || b. -/
def JSVal.orJS (a b : JSVal) : JSVal :=
  if a.truthy then a else b

/-- a ?? b. -/
def JSVal.coalesce (a b : JSVal) : JSVal :=
  match a with
  | .undefined => b
  | .null => b
  | v => v

/-- Strict equality of the value with a given string literal. -/
def JSVal.isStr : JSVal → String → Bool
  | .str t, s => t = s
  | _, _ => false

/-- Is the value an array (Array.isArray)? -/
def JSVal.isArr : JSVal → Bool
  | .arr _ => true
  | _ => false

/-- Is the value a non-empty array? -/
def JSVal.isNonEmptyArr : JSVal → Bool
  | .arr (_ :: _) => true
  | _ => false

/-- The element list of an array value, empty otherwise. -/
def JSVal.elems : JSVal → List JSVal
  | .arr xs => xs
  | _ => []

/-- The Number(...) conversion restricted to the values the normalizer
meets; string-to-number parsing is delegated to the abstracted toNum
parameter, and none stands for NaN. -/
def jsNumber (toNum : String → Option ℚ) : JSVal → Option ℚ
  | .undefined => none
  | .null => some 0
  | .bool b => some (if b then 1 else 0)
  | .num q => some q
  | .str s => toNum s
  | .arr _ => none
  | .obj _ => none

/-- The safeParse helper of normalizePageData: falsy input degrades to
the fallback, objects and arrays pass through, the literal strings
null and undefined degrade to the fallback, other strings go through
JSON.parse (abstracted as the parse parameter, none meaning the parse
threw and the catch returned the fallback), and remaining primitives
are returned as JSON.parse of their string coercion, which is the
value itself. -/
def safeParse (parse : String → Option JSVal) (data fallback : JSVal) : JSVal :=
  if ¬ data.truthy then fallback
  else match data with
  | .arr xs => .arr xs
  | .obj fields => .obj fields
  | .str s =>
      if s = "null" ∨ s = "undefined" then fallback
      else (parse s).getD fallback
  | v => v

/-- Spreading a value into an array literal [...v]: arrays spread to
their elements, strings to their characters, everything else throws a
TypeError (value is not iterable). -/
def spreadIterable : JSVal → Except String (List JSVal)
  | .arr xs => .ok xs
  | .str s => .ok (s.toList.map (fun c => JSVal.str (String.mk [c])))
  | _ => .error "TypeError: value is not iterable"

/-- Calling .map on (v || []): falsy values degrade to the empty array,
arrays map, anything else throws (map is not a function). -/
def jsArrOrEmpty (v : JSVal) : Except String (List JSVal) :=
  if ¬ v.truthy then .ok []
  else match v with
  | .arr xs => .ok xs
  | _ => .error "TypeError: map is not a function"

/-- The visual or text box the unified schema produces, from the
construction inside normalizePageData (the LayoutBox shape of the
unified page model).  Loosely typed fields keep the JavaScript value;
numeric fields hold none when the conversion produced NaN. -/
structure LayoutBox where
  id : JSVal
  role : JSVal
  left : Option ℚ
  top : Option ℚ
  width : Option ℚ
  height : Option ℚ
  zIndex : Option ℚ
  contentType : JSVal
  contentUrl : JSVal
  contentZoom : Option ℚ
  contentX : Option ℚ
  contentY : Option ℚ
  contentRotation : Option ℚ
  contentText : JSVal
  contentConfig : JSVal

/-- The page style block the normalizer produces. -/
structure PageStyles where
  backgroundColor : JSVal
  backgroundOpacity : Option ℚ
  backgroundImage : JSVal
  backgroundBlendMode : JSVal

/-- One legacy asset row as mapped by the legacy branch of the
normalizer: identifier, restored type, url, z-index and slot come from
the row, and the config blob is spread into the asset. -/
structure LegacyAsset where
  id : JSVal
  type : JSVal
  url : JSVal
  zIndex : JSVal
  slotId : JSVal
  config : JSVal

/-- The canonical page record normalizePageData returns. -/
structure NormPage where
  id : JSVal
  pageNumber : JSVal
  layoutTemplate : JSVal
  layoutConfig : List LayoutBox
  textLayers : List LayoutBox
  pageStyles : PageStyles
  backgroundColor : JSVal
  backgroundOpacity : Option ℚ
  backgroundImage : JSVal
  assets : List LegacyAsset

/-- The assets-to-layout fallback of the unified branch: one freeform
layout item is synthesized from each raw asset row; a plain member
access on a null or undefined row throws, as in the source. -/
def assetToLayoutItem (a : JSVal) : Except String JSVal := do
  let idv ← a.get "id"
  let xv ← a.get "x"
  let yv ← a.get "y"
  let wv ← a.get "width"
  let hv ← a.get "height"
  let zv ← a.get "z_index"
  let atype ← a.get "asset_type"
  let ty ← a.get "type"
  let urlv ← a.get "url"
  let cfg ← a.get "config"
  pure (JSVal.obj
    [("id", idv),
     ("role", .str "freeform"),
     ("left", xv.orJS (.num 0)),
     ("top", yv.orJS (.num 0)),
     ("width", wv.orJS (.num 30)),
     ("height", hv.orJS (.num 30)),
     ("zIndex", zv.orJS (.num 10)),
     ("content", .obj
       [("type", (atype.orJS ty).orJS (.str "image")),
        ("url", urlv),
        ("config", cfg.orJS (.obj []))])])

/-- The visual-box construction of the unified branch (one frame of
allItems that is not a text item).  gen stands for the generateId()
fallback for a missing id. -/
def frameToBox (toNum : String → Option ℚ) (gen : String) (frame : JSVal) : LayoutBox :=
  let content := frame.getOpt "content"
  { id := (frame.getOpt "id").orJS (.str gen)
    role := (frame.getOpt "role").orJS (.str "slot")
    left := jsNumber toNum ((frame.getOpt "left").coalesce ((frame.getOpt "x").coalesce (.num 0)))
    top := jsNumber toNum ((frame.getOpt "top").coalesce ((frame.getOpt "y").coalesce (.num 0)))
    width := jsNumber toNum ((frame.getOpt "width").coalesce (.num 30))
    height := jsNumber toNum ((frame.getOpt "height").coalesce (.num 30))
    zIndex := jsNumber toNum ((frame.getOpt "zIndex").coalesce ((frame.getOpt "z").coalesce (.num 10)))
    contentType := ((content.getOpt "type").orJS (frame.getOpt "type")).orJS (.str "image")
    contentUrl := ((content.getOpt "url").orJS (frame.getOpt "url")).orJS .null
    contentZoom := jsNumber toNum ((content.getOpt "zoom").coalesce ((frame.getOpt "zoom").coalesce (.num 1)))
    contentX := jsNumber toNum ((content.getOpt "x").coalesce ((frame.getOpt "focalX").coalesce (.num 50)))
    contentY := jsNumber toNum ((content.getOpt "y").coalesce ((frame.getOpt "focalY").coalesce (.num 50)))
    contentRotation := jsNumber toNum ((content.getOpt "rotation").coalesce ((frame.getOpt "rotation").coalesce (.num 0)))
    contentText := ((content.getOpt "text").orJS ((content.getOpt "config").getOpt "content")).orJS
      (content.orJS .null)
    contentConfig := (content.getOpt "config").orJS ((frame.getOpt "config").orJS (.obj [])) }

/-- The text-box construction of the unified branch. -/
def frameToTextBox (toNum : String → Option ℚ) (gen : String) (frame : JSVal) : LayoutBox :=
  let content := frame.getOpt "content"
  { id := (frame.getOpt "id").orJS (.str gen)
    role := .str "text"
    left := jsNumber toNum ((frame.getOpt "left").coalesce ((frame.getOpt "x").coalesce (.num 0)))
    top := jsNumber toNum ((frame.getOpt "top").coalesce ((frame.getOpt "y").coalesce (.num 0)))
    width := jsNumber toNum ((frame.getOpt "width").coalesce (.num 50))
    height := jsNumber toNum ((frame.getOpt "height").coalesce (.num 10))
    zIndex := jsNumber toNum ((frame.getOpt "zIndex").coalesce ((frame.getOpt "z").coalesce (.num 50)))
    contentType := .str "text"
    contentUrl := .undefined
    contentZoom := some 1
    contentX := some 50
    contentY := some 50
    contentRotation := jsNumber toNum ((content.getOpt "rotation").orJS ((frame.getOpt "rotation").orJS (.num 0)))
    contentText := ((content.getOpt "text").orJS ((content.getOpt "config").getOpt "content")).orJS
      (content.orJS (.str "Double click to edit"))
    contentConfig := (content.getOpt "config").orJS ((frame.getOpt "config").orJS (.obj [])) }

/-- Does the item pass the visual filter item && item.role !== 'text'? -/
def isVisualItem (item : JSVal) : Bool :=
  item.truthy && !((item.getOpt "role").isStr "text")

/-- Does the item pass the text filter
item && (item.role === 'text' || item.type === 'text')? -/
def isTextItem (item : JSVal) : Bool :=
  item.truthy && ((item.getOpt "role").isStr "text" || (item.getOpt "type").isStr "text")

/-- One legacy asset row mapping, with the restored-type upgrade rule:
an explicit config.originalType wins, an image row with a map config
becomes a map, a text row with a location hint becomes a location.  A
plain member access on a null or undefined row throws. -/
def legacyAssetRow (a : JSVal) : Except String LegacyAsset := do
  let atype ← a.get "asset_type"
  let cfg := a.getOpt "config"
  let restoredType :=
    if (cfg.getOpt "originalType").truthy then cfg.getOpt "originalType"
    else if atype.isStr "image" && (cfg.getOpt "mapConfig").truthy then .str "map"
    else if atype.isStr "text" &&
        ((cfg.getOpt "location").truthy || (cfg.getOpt "isLocation").truthy) then
      .str "location"
    else atype
  let idv ← a.get "id"
  let urlv ← a.get "url"
  let zv ← a.get "z_index"
  let slotv ← a.get "slot_id"
  pure
    { id := idv
      type := restoredType
      url := urlv
      zIndex := zv.orJS (.num 0)
      slotId := slotv
      config := cfg.orJS (.obj []) }

/-- The page style block of the unified branch. -/
def unifiedPageStyles (toNum : String → Option ℚ) (p : List (String × JSVal)) : PageStyles :=
  let field := fun k => ((p.lookup k).getD JSVal.undefined)
  let ps := field "page_styles"
  let bg := field "background_config"
  { backgroundColor := ((ps.getOpt "backgroundColor").orJS ((bg.getOpt "color").orJS
      ((field "background_color").orJS (.str "#ffffff"))))
    backgroundOpacity := jsNumber toNum ((ps.getOpt "backgroundOpacity").coalesce
      ((bg.getOpt "opacity").coalesce ((field "background_opacity").coalesce (.num 100))))
    backgroundImage := ((ps.getOpt "backgroundImage").orJS ((bg.getOpt "image").orJS
      ((field "background_image").orJS .undefined)))
    backgroundBlendMode := ((ps.getOpt "backgroundBlendMode").orJS
      ((bg.getOpt "blendMode").orJS (.str "normal"))) }

/-- Property read on the raw record object. -/
def recField (p : List (String × JSVal)) (k : String) : JSVal :=
  (p.lookup k).getD .undefined

/-- The layout-source selection of normalizePageData: the first of
layout_config, layout_json, content that parses to a non-empty array,
else the first truthy parsed value, else the empty array. -/
def layoutSource (parse : String → Option JSVal) (p : List (String × JSVal)) : JSVal :=
  let configData := safeParse parse (recField p "layout_config") .null
  let jsonData := safeParse parse (recField p "layout_json") .null
  let contentData := safeParse parse (recField p "content") .null
  if configData.truthy && configData.isNonEmptyArr then configData
  else if jsonData.truthy && jsonData.isNonEmptyArr then jsonData
  else if contentData.truthy && contentData.isNonEmptyArr then contentData
  else ((configData.orJS jsonData).orJS contentData).orJS (.arr [])

/-- The parsed text-layer array of normalizePageData. -/
def textArrayOf (parse : String → Option JSVal) (p : List (String × JSVal)) : JSVal :=
  safeParse parse ((recField p "text_layers").orJS (.arr [])) (.arr [])

/-- The unified-schema detection of normalizePageData: the selected
layout source is an array and is non-empty or one of the unified
columns is present and truthy. -/
def isUnifiedRecord (parse : String → Option JSVal) (p : List (String × JSVal)) : Bool :=
  (layoutSource parse p).isArr &&
    ((layoutSource parse p).isNonEmptyArr || (recField p "layout_config").truthy
      || (recField p "layout_json").truthy)

/-- The p.assets && p.assets.length > 0 test: a non-empty array or a
non-empty string has a positive length property; other values have an
undefined length and the comparison is false. -/
def assetsLengthPositive : JSVal → Bool
  | .arr (_ :: _) => true
  | .str st => st ≠ ""
  | _ => false

/-- JavaScript array map with a callback that can throw: the first
throwing row aborts the whole map. -/
def mapExcept (f : JSVal → Except String α) : List JSVal → Except String (List α)
  | [] => .ok []
  | x :: t =>
    match f x, mapExcept f t with
    | .ok y, .ok l => .ok (y :: l)
    | .error e, _ => .error e
    | .ok _, .error e => .error e

/-- The finalLayoutArray of the unified branch: when the selected
layout array is empty and a non-empty legacy assets list is present,
layout items are synthesized from the asset rows (throwing on a
string, whose map property is not a function, and on null rows). -/
def finalLayoutArrayOf (parse : String → Option JSVal) (p : List (String × JSVal)) :
    Except String (List JSVal) :=
  if (layoutSource parse p).elems.isEmpty && (recField p "assets").truthy
      && assetsLengthPositive (recField p "assets") then
    match recField p "assets" with
    | .arr rows => mapExcept assetToLayoutItem rows
    | _ => .error "TypeError: map is not a function"
  else .ok ((layoutSource parse p).elems)

/-- The unified branch of normalizePageData. -/
def unifiedBranch (parse : String → Option JSVal) (toNum : String → Option ℚ)
    (gen : ℕ → String) (p : List (String × JSVal)) : Except String NormPage :=
  match finalLayoutArrayOf parse p, spreadIterable (textArrayOf parse p) with
  | .ok finalLayoutArray, .ok textItems =>
    let allItems := finalLayoutArray ++ textItems
    let styles := unifiedPageStyles toNum p
    .ok
      { id := (recField p "id").orJS (.str "page-generated")
        pageNumber := recField p "page_number"
        layoutTemplate := ((recField p "layout_template").orJS
          ((recField p "template_id").orJS (.str "freeform")))
        layoutConfig := (allItems.filter isVisualItem).enum.map
          (fun x => frameToBox toNum (gen x.1) x.2)
        textLayers := (allItems.filter isTextItem).enum.map
          (fun x => frameToTextBox toNum (gen x.1) x.2)
        pageStyles := styles
        backgroundColor := styles.backgroundColor
        backgroundOpacity := styles.backgroundOpacity
        backgroundImage := styles.backgroundImage
        assets := [] }
  | .error e, _ => .error e
  | _, .error e => .error e

/-- The legacy branch of normalizePageData. -/
def legacyBranch (toNum : String → Option ℚ) (p : List (String × JSVal)) :
    Except String NormPage :=
  match jsArrOrEmpty (recField p "assets") with
  | .error e => .error e
  | .ok rows =>
    match mapExcept legacyAssetRow rows with
    | .error e => .error e
    | .ok legacyAssets =>
      .ok
        { id := recField p "id"
          pageNumber := recField p "page_number"
          layoutTemplate := (recField p "template_id").orJS (.str "freeform")
          layoutConfig := []
          textLayers := []
          pageStyles :=
            { backgroundColor := (recField p "background_color").orJS (.str "#ffffff")
              backgroundOpacity := jsNumber toNum
                ((recField p "background_opacity").coalesce (.num 100))
              backgroundImage := recField p "background_image"
              backgroundBlendMode := .str "normal" }
          backgroundColor := (recField p "background_color").orJS (.str "#ffffff")
          backgroundOpacity := jsNumber toNum
            ((recField p "background_opacity").coalesce (.num 100))
          backgroundImage := recField p "background_image"
          assets := legacyAssets }

/-- normalizePageData from normalization.ts.  parse abstracts
JSON.parse (none: the parse threw), toNum abstracts string-to-number
coercion (none: NaN), gen the generateId() fallback ids, and p is the
raw row as a JavaScript object.  The result is an Except because the
source can throw a TypeError on sufficiently malformed rows. -/
def normalizePageData (parse : String → Option JSVal) (toNum : String → Option ℚ)
    (gen : ℕ → String) (p : List (String × JSVal)) : Except String NormPage :=
  if isUnifiedRecord parse p then unifiedBranch parse toNum gen p
  else legacyBranch toNum p

/-- One invocation of a mutating store operation, with all its
arguments (including the threaded timestamp and fresh identifiers). -/
inductive StoreOp where
  | addPage (now : ℕ) (id1 id2 template : String)
  | removePage (now : ℕ) (pageId : String)
  | updatePage (now : ℕ) (pageId : String) (updates : PageUpdate)
  | addAsset (now : ℕ) (newId pageId : String) (asset : Asset)
  | updateAsset (now : ℕ) (pageId assetId : String) (updates : AssetUpdate)
  | removeAsset (now : ℕ) (pageId assetId : String)
  | duplicateAsset (now : ℕ) (newId pageId assetId : String)
  | updateAssetZIndex (now : ℕ) (pageId assetId : String) (direction : ZDirection)
  | uploadMedia (now : ℕ) (uploaded : List Asset)
  | addMediaByUrl (now : ℕ) (newId url : String) (type : AssetType)
  | moveFromLibrary (now : ℕ) (assetId pageId : String)
  | applyLayout (now : ℕ) (pageId template : String)
  | duplicatePage (now : ℕ) (newPageId : String) (gen : ℕ → String) (pageId : String)
  | movePage (now : ℕ) (pageId : String) (direction : MoveDirection)
  | reorderPages (now : ℕ) (fromIndex toIndex : ℕ)
  | updateConfig (now : ℕ) (updates : ConfigUpdate)
  | updatePageAssets (now : ℕ) (pageId : String) (newAssets : List Asset)
  | moveAssetToPage (now : ℕ) (assetId fromPageId toPageId : String) (newX newY : ℚ)
  | syncStyles (now : ℕ) (sourceAsset : Option Asset)

/-- Dispatch of a StoreOp to the corresponding store operation. -/
def applyStoreOp (op : StoreOp) (s : EditorState) : EditorState :=
  match op with
  | .addPage now id1 id2 template => addPage s now id1 id2 template
  | .removePage now pageId => removePage s now pageId
  | .updatePage now pageId updates => updatePage s now pageId updates
  | .addAsset now newId pageId asset => addAsset s now newId pageId asset
  | .updateAsset now pageId assetId updates => updateAsset s now pageId assetId updates
  | .removeAsset now pageId assetId => removeAsset s now pageId assetId
  | .duplicateAsset now newId pageId assetId => duplicateAsset s now newId pageId assetId
  | .updateAssetZIndex now pageId assetId dir => updateAssetZIndex s now pageId assetId dir
  | .uploadMedia now uploaded => uploadMedia s now uploaded
  | .addMediaByUrl now newId url type => addMediaByUrl s now newId url type
  | .moveFromLibrary now assetId pageId => moveFromLibrary s now assetId pageId
  | .applyLayout now pageId template => applyLayout s now pageId template
  | .duplicatePage now newPageId gen pageId => duplicatePage s now newPageId gen pageId
  | .movePage now pageId dir => movePage s now pageId dir
  | .reorderPages now fromIndex toIndex => reorderPages s now fromIndex toIndex
  | .updateConfig now updates => updateConfig s now updates
  | .updatePageAssets now pageId newAssets => updatePageAssets s now pageId newAssets
  | .moveAssetToPage now aid fromP toP nx ny => moveAssetToPage s now aid fromP toP nx ny
  | .syncStyles now sourceAsset => syncStyles s now sourceAsset

/-- One invocation of a page-structural operation (the operations of
claim C2). -/
inductive PageOp where
  | addPage (now : ℕ) (id1 id2 template : String)
  | removePage (now : ℕ) (pageId : String)
  | duplicatePage (now : ℕ) (newPageId : String) (gen : ℕ → String) (pageId : String)
  | movePage (now : ℕ) (pageId : String) (direction : MoveDirection)
  | reorderPages (now : ℕ) (fromIndex toIndex : ℕ)

/-- Dispatch of a PageOp to the corresponding store operation. -/
def applyPageOp (s : EditorState) (op : PageOp) : EditorState :=
  match op with
  | .addPage now id1 id2 template => addPage s now id1 id2 template
  | .removePage now pageId => removePage s now pageId
  | .duplicatePage now newPageId gen pageId => duplicatePage s now newPageId gen pageId
  | .movePage now pageId dir => movePage s now pageId dir
  | .reorderPages now fromIndex toIndex => reorderPages s now fromIndex toIndex

/-- Auxiliary: a locked config makes the locked test true. -/
theorem locked_of_isLocked_true {c : AlbumConfig} (h : c.isLocked = some true) :
    c.locked = true := by
  simp [AlbumConfig.locked, h]

/-- C1: for every editor state holding an album whose config.isLocked
is true, every mutating store operation (addPage, removePage,
updatePage, addAsset, updateAsset, removeAsset, duplicateAsset,
updateAssetZIndex, uploadMedia, addMediaByUrl, moveFromLibrary,
applyLayout, duplicatePage, movePage, reorderPages, updateConfig,
updatePageAssets, moveAssetToPage, syncStyles), with any arguments,
leaves the whole editor state (in particular the album aggregate)
unchanged. -/
theorem locked_ops_noop (s : EditorState) (a : Album)
    (ha : s.album = some a) (hl : a.config.isLocked = some true)
    (op : StoreOp) : applyStoreOp op s = s := by
  have hlk : a.config.locked = true := locked_of_isLocked_true hl
  cases op <;>
    simp [applyStoreOp, addPage, removePage, updatePage, addAsset, updateAsset,
      removeAsset, duplicateAsset, updateAssetZIndex, uploadMedia, addMediaByUrl,
      moveFromLibrary, applyLayout, duplicatePage, movePage, reorderPages,
      updateConfig, updatePageAssets, moveAssetToPage, syncStyles, ha, hlk]

/-- A small locked album used as a concrete witness input. -/
def exLockedAlbum : Album :=
  { id := "alb1"
    family_id := "fam1"
    title := "Summer"
    pages := [{ id := "p1", pageNumber := 1, layoutTemplate := "freeform",
                assets := [], backgroundColor := "#ffffff" }]
    unplacedMedia := []
    hashtags := []
    config :=
      { dimensions := { width := 1000, height := 700, unit := .px, bleed := 25, gutter := 40 }
        useSpreadView := true
        gridSettings := { size := 20, snap := true, visible := false }
        isLocked := some true }
    createdAt := 0
    updatedAt := 0
    isPublished := false }

/-- Editor state holding the locked witness album. -/
def exLockedState : EditorState :=
  { album := some exLockedAlbum
    history := []
    redoStack := []
    currentPageIndex := 0
    selectedAssetId := none }

/-- Witness for C1: a concrete locked album on which addPage is a
no-op, by the locked-operations theorem. -/
theorem locked_ops_noop_witness :
    applyStoreOp (StoreOp.addPage 7 "n1" "n2" "freeform") exLockedState = exLockedState :=
  locked_ops_noop exLockedState exLockedAlbum rfl rfl
    (StoreOp.addPage 7 "n1" "n2" "freeform")

/-- Committing an album makes it the current aggregate. -/
theorem commitAlbum_album (s : EditorState) (a : Album) :
    (commitAlbum s a).album = some a := by
  cases h : s.album <;> simp [commitAlbum, h]

/-- Committing over an existing aggregate pushes the previous value on
the bounded history and clears the redo stack. -/
theorem commitAlbum_of_some (s : EditorState) (a p : Album) (h : s.album = some p) :
    commitAlbum s a =
      { s with album := some a, history := lastN 19 s.history ++ [p], redoStack := [] } := by
  simp [commitAlbum, h]

/-- A fold of commits over a state holding an album still holds one. -/
theorem foldl_commitAlbum_some (l : List Album) :
    ∀ (s : EditorState) (a : Album), s.album = some a →
      ∃ a', (l.foldl commitAlbum s).album = some a' := by
  induction l with
  | nil => exact fun s a h => ⟨a, h⟩
  | cons b t ih =>
      intro s a h
      exact ih (commitAlbum s b) b (commitAlbum_album s b)

/-- C9: after any nonempty sequence of at most 20 edits (commits of new
aggregate values), undo restores exactly the aggregate value that held
immediately before the most recent edit, redo immediately after the
undo restores the value the undo discarded, and any new edit performed
after the undo empties the redo stack, making redo a no-op. -/
theorem undo_redo_spec (s0 : EditorState) (a0 : Album) (h0 : s0.album = some a0)
    (edits : List Album) (hne : edits ≠ []) (hlen : edits.length ≤ 20) :
    ((undo (edits.foldl commitAlbum s0)).album
        = (edits.dropLast.foldl commitAlbum s0).album) ∧
    ((redo (undo (edits.foldl commitAlbum s0))).album
        = (edits.foldl commitAlbum s0).album) ∧
    (∀ b : Album,
      (commitAlbum (undo (edits.foldl commitAlbum s0)) b).redoStack = [] ∧
      redo (commitAlbum (undo (edits.foldl commitAlbum s0)) b)
        = commitAlbum (undo (edits.foldl commitAlbum s0)) b) := by
  obtain ⟨aP, hP⟩ := foldl_commitAlbum_some edits.dropLast s0 a0 h0
  have hsplit : edits.dropLast ++ [edits.getLast hne] = edits :=
    List.dropLast_append_getLast hne
  have hN : edits.foldl commitAlbum s0
      = commitAlbum (edits.dropLast.foldl commitAlbum s0) (edits.getLast hne) := by
    conv_lhs => rw [← hsplit]
    rw [List.foldl_append]
    simp
  set sPrev := edits.dropLast.foldl commitAlbum s0 with hsPrev
  set aL := edits.getLast hne with haL
  have hcommit : commitAlbum sPrev aL =
      { sPrev with
        album := some aL
        history := lastN 19 sPrev.history ++ [aP]
        redoStack := [] } := commitAlbum_of_some _ _ _ hP
  have hundo : undo (edits.foldl commitAlbum s0) =
      { sPrev with
        album := some aP
        history := lastN 19 sPrev.history
        redoStack := [aL] } := by
    rw [hN, hcommit]
    simp [undo]
  refine ⟨?_, ?_, ?_⟩
  · rw [hundo, hP]
  · rw [hundo, hN, hcommit]
    simp [redo]
  · intro b
    rw [hundo]
    constructor
    · simp [commitAlbum]
    · simp [commitAlbum, redo]

/-- An unlocked album with the given title and pages, used as witness
input. -/
def mkAlbum (title : String) (pages : List Page) : Album :=
  { id := "alb1"
    family_id := "fam1"
    title := title
    pages := pages
    unplacedMedia := []
    hashtags := []
    config :=
      { dimensions := { width := 1000, height := 700, unit := .px, bleed := 25, gutter := 40 }
        useSpreadView := true
        gridSettings := { size := 20, snap := true, visible := false } }
    createdAt := 0
    updatedAt := 0
    isPublished := false }

/-- A simple blank page used by the witness albums. -/
def mkPage (id : String) (n : ℕ) (template : String := "freeform") : Page :=
  { id := id, pageNumber := n, layoutTemplate := template, assets := [],
    backgroundColor := "#ffffff" }

/-- Base album value for the undo/redo witness. -/
def exAlbumA : Album := mkAlbum "A" [mkPage "p1" 1]

/-- First edited album value for the undo/redo witness. -/
def exAlbumB : Album := mkAlbum "B" [mkPage "p1" 1]

/-- Second edited album value for the undo/redo witness. -/
def exAlbumC : Album := mkAlbum "C" [mkPage "p1" 1]

/-- Editor state holding the base witness album. -/
def exState0 : EditorState :=
  { album := some exAlbumA
    history := []
    redoStack := []
    currentPageIndex := 0
    selectedAssetId := none }

/-- Witness for C9: two concrete edits, then undo restores the value
before the second edit, redo restores the undone value, and an edit
after undo clears the redo stack. -/
theorem undo_redo_spec_witness :
    exState0.album = some exAlbumA ∧
    (undo ([exAlbumB, exAlbumC].foldl commitAlbum exState0)).album
      = ([exAlbumB, exAlbumC].dropLast.foldl commitAlbum exState0).album ∧
    (redo (undo ([exAlbumB, exAlbumC].foldl commitAlbum exState0))).album
      = ([exAlbumB, exAlbumC].foldl commitAlbum exState0).album ∧
    (commitAlbum (undo ([exAlbumB, exAlbumC].foldl commitAlbum exState0)) exAlbumA).redoStack
      = [] :=
  ⟨rfl,
   (undo_redo_spec exState0 exAlbumA rfl [exAlbumB, exAlbumC] (by simp) (by simp)).1,
   (undo_redo_spec exState0 exAlbumA rfl [exAlbumB, exAlbumC] (by simp) (by simp)).2.1,
   ((undo_redo_spec exState0 exAlbumA rfl [exAlbumB, exAlbumC] (by simp)
      (by simp)).2.2 exAlbumA).1⟩

/-- The page numbers of the list are exactly 1..N in list order. -/
def Numbered (ps : List Page) : Prop :=
  ps.map Page.pageNumber = List.range' 1 ps.length

/-- The renumbering map assigns n+1, n+2, ... in order. -/
theorem renumberFrom_map_pageNumber (l : List Page) :
    ∀ n, (renumberFrom n l).map Page.pageNumber = List.range' (n + 1) l.length := by
  induction l with
  | nil => intro n; rfl
  | cons p t ih =>
      intro n
      simp [renumberFrom, List.range'_succ, ih (n + 1)]

/-- renumber keeps the length. -/
theorem renumberFrom_length (l : List Page) : ∀ n, (renumberFrom n l).length = l.length := by
  induction l with
  | nil => intro n; rfl
  | cons p t ih => intro n; simp [renumberFrom, ih]

/-- Any renumbered list is correctly numbered. -/
theorem numbered_renumber (l : List Page) : Numbered (renumber l) := by
  unfold Numbered renumber
  rw [renumberFrom_map_pageNumber l 0, renumberFrom_length]

/-- Setting the current page index after a commit does not change the
committed aggregate. -/
theorem commitAlbum_album_set_index (s : EditorState) (x : Album) (n : ℕ) :
    ({ commitAlbum s x with currentPageIndex := n }).album = some x := by
  simp [commitAlbum_album]

/-- Every page-structural operation either leaves the aggregate alone
or commits an album whose page list went through the renumbering map. -/
theorem pageOp_shape (s : EditorState) (a : Album) (ha : s.album = some a)
    (op : PageOp) :
    (applyPageOp s op).album = some a ∨
    ∃ ps b, (applyPageOp s op).album = some b ∧ b.pages = renumber ps := by
  cases op <;>
    simp only [applyPageOp, addPage, removePage, duplicatePage, movePage,
      reorderPages, ha] <;>
    (repeat' split) <;>
    first
      | exact Or.inl ha
      | exact Or.inl rfl
      | exact Or.inr ⟨_, _, commitAlbum_album _ _, rfl⟩

/-- C2: starting from an album whose pages are numbered 1..N
contiguously, any sequence of the page-structural operations addPage,
removePage, duplicatePage, movePage and reorderPages leaves the album
with page numbers exactly 1..M for the new page count M, in list
order, with no gaps and no duplicates. -/
theorem pageOps_numbered (s0 : EditorState) (a0 : Album) (h0 : s0.album = some a0)
    (hn : Numbered a0.pages) (ops : List PageOp) :
    ∃ a', (ops.foldl applyPageOp s0).album = some a' ∧ Numbered a'.pages := by
  induction ops generalizing s0 a0 with
  | nil => exact ⟨a0, h0, hn⟩
  | cons op rest ih =>
      rw [List.foldl_cons]
      rcases pageOp_shape s0 a0 h0 op with h | ⟨ps, b, hb, hps⟩
      · exact ih (applyPageOp s0 op) a0 h hn
      · exact ih (applyPageOp s0 op) b hb (hps ▸ numbered_renumber ps)

/-- Witness for C2: a concrete 1-page album with correct numbering and
one concrete addPage call, via the numbering theorem. -/
theorem pageOps_numbered_witness :
    exState0.album = some exAlbumA ∧ Numbered exAlbumA.pages ∧
    ∃ a', ([PageOp.addPage 3 "n1" "n2" "freeform"].foldl applyPageOp exState0).album = some a'
      ∧ Numbered a'.pages :=
  ⟨rfl, by unfold Numbered; rfl,
   pageOps_numbered exState0 exAlbumA rfl (by unfold Numbered; rfl)
     [PageOp.addPage 3 "n1" "n2" "freeform"]⟩

/-- A page with its page number blanked, for comparing pages up to
renumbering. -/
def stripNumber (p : Page) : Page :=
  { p with pageNumber := 0 }

/-- Renumbering changes nothing but the page numbers. -/
theorem map_stripNumber_renumberFrom (l : List Page) :
    ∀ n, (renumberFrom n l).map stripNumber = l.map stripNumber := by
  induction l with
  | nil => intro n; rfl
  | cons p t ih => intro n; simp [renumberFrom, ih, stripNumber]

/-- Splice insertion is a permutation with consing. -/
theorem insertAt_perm (n : ℕ) (x : α) (l : List α) : (insertAt n x l).Perm (x :: l) := by
  unfold insertAt
  calc (l.take n ++ x :: l.drop n).Perm (x :: (l.take n ++ l.drop n)) := List.perm_middle
    _ = x :: l := by rw [List.take_append_drop]

/-- Removing the element at a valid index and consing it back is a
permutation of the original list. -/
theorem eraseIdx_cons_perm (l : List α) (i : ℕ) (x : α) (h : l.get? i = some x) :
    l.Perm (x :: l.eraseIdx i) := by
  have hi : i < l.length := by
    by_contra hcon
    rw [List.get?_eq_none.mpr (le_of_not_lt hcon)] at h
    exact Option.noConfusion h
  have hx : l[i] = x := by
    have := List.get?_eq_get hi
    rw [this] at h
    exact Option.some.inj h
  rw [List.eraseIdx_eq_take_drop_succ]
  conv_lhs => rw [← List.take_append_drop i l, List.drop_eq_getElem_cons hi, hx]
  exact List.perm_middle

/-- movePage preserves the pages up to reordering and renumbering. -/
theorem movePage_strip_perm (s : EditorState) (a : Album) (ha : s.album = some a)
    (now : ℕ) (pid : String) (dir : MoveDirection) :
    ∃ a', (movePage s now pid dir).album = some a' ∧
      (a'.pages.map stripNumber).Perm (a.pages.map stripNumber) := by
  simp only [movePage, ha]
  split
  · exact ⟨a, ha, List.Perm.refl _⟩
  · split
    · exact ⟨a, ha, List.Perm.refl _⟩
    · split
      · exact ⟨a, ha, List.Perm.refl _⟩
      · split
        · exact ⟨a, ha, List.Perm.refl _⟩
        · split
          · exact ⟨a, ha, List.Perm.refl _⟩
          · next hmoved =>
              refine ⟨_, commitAlbum_album_set_index _ _ _, ?_⟩
              simp only [renumber, map_stripNumber_renumberFrom]
              exact ((insertAt_perm _ _ _).map stripNumber).trans
                (((eraseIdx_cons_perm a.pages _ _ hmoved).map stripNumber).symm)

/-- reorderPages with an in-range fromIndex preserves the pages up to
reordering and renumbering. -/
theorem reorderPages_strip_perm (s : EditorState) (a : Album) (ha : s.album = some a)
    (now fromIndex toIndex : ℕ) (hfrom : fromIndex < a.pages.length) :
    ∃ a', (reorderPages s now fromIndex toIndex).album = some a' ∧
      (a'.pages.map stripNumber).Perm (a.pages.map stripNumber) := by
  simp only [reorderPages, ha]
  split
  · exact ⟨a, ha, List.Perm.refl _⟩
  · split
    · exact ⟨a, ha, List.Perm.refl _⟩
    · split
      · next hmoved =>
          refine ⟨_, commitAlbum_album _ _, ?_⟩
          simp only [renumber, map_stripNumber_renumberFrom]
          exact ((insertAt_perm _ _ _).map stripNumber).trans
            (((eraseIdx_cons_perm a.pages _ _ hmoved).map stripNumber).symm)
      · next hnone =>
          exact absurd hfrom (not_lt.mpr (List.get?_eq_none.mp hnone))

/-- C10 (amended): for every unlocked album state, every movePage call
preserves the set of pages up to renumbering and reordering (no page
added or removed, every page keeping its id, layout template,
background color and full assets list), and so does every reorderPages
call whose fromIndex is within the page-list bounds.  An out-of-range
fromIndex makes reorderPages splice in a degenerate empty page, which
is the counterexample to the unrestricted claim. -/
theorem movePage_reorderPages_frame (s : EditorState) (a : Album)
    (ha : s.album = some a) (hu : a.config.locked = false) (now : ℕ) :
    (∀ (pid : String) (dir : MoveDirection),
      ∃ a', (movePage s now pid dir).album = some a' ∧
        (a'.pages.map stripNumber).Perm (a.pages.map stripNumber)) ∧
    (∀ fromIndex toIndex : ℕ, fromIndex < a.pages.length →
      ∃ a', (reorderPages s now fromIndex toIndex).album = some a' ∧
        (a'.pages.map stripNumber).Perm (a.pages.map stripNumber)) :=
  ⟨fun pid dir => movePage_strip_perm s a ha now pid dir,
   fun fromIndex toIndex hfrom =>
     reorderPages_strip_perm s a ha now fromIndex toIndex hfrom⟩

/-- A three-page unlocked album used by the reorder counterexample. -/
def exAlbum3 : Album :=
  mkAlbum "X" [mkPage "p1" 1, mkPage "p2" 2, mkPage "p3" 3]

/-- Editor state holding the three-page album. -/
def exState3 : EditorState :=
  { album := some exAlbum3
    history := []
    redoStack := []
    currentPageIndex := 0
    selectedAssetId := none }

/-- Counterexample to C10 as stated: on an unlocked three-page album,
the call reorderPages(5, 1) passes the cover guards, splices a
degenerate page in, and the album ends up with four pages, so a page
was added. -/
theorem reorderPages_out_of_range_adds_page :
    exAlbum3.config.locked = false ∧
    exAlbum3.pages.length = 3 ∧
    ((reorderPages exState3 9 5 1).album.getD exAlbum3).pages.length = 4 := by
  decide

/-- Witness for the amended C10: a concrete movePage call and a
concrete in-range reorderPages call on the three-page album, via the
frame theorem. -/
theorem movePage_reorderPages_frame_witness :
    exState3.album = some exAlbum3 ∧ exAlbum3.config.locked = false ∧
    (∃ a', (movePage exState3 4 "p2" MoveDirection.right).album = some a' ∧
      (a'.pages.map stripNumber).Perm (exAlbum3.pages.map stripNumber)) ∧
    (1 < exAlbum3.pages.length) ∧
    (∃ a', (reorderPages exState3 4 1 2).album = some a' ∧
      (a'.pages.map stripNumber).Perm (exAlbum3.pages.map stripNumber)) :=
  ⟨rfl, rfl,
   (movePage_reorderPages_frame exState3 exAlbum3 rfl rfl 4).1 "p2" MoveDirection.right,
   by decide,
   (movePage_reorderPages_frame exState3 exAlbum3 rfl rfl 4).2 1 2 (by decide)⟩

/-- Does the page contain an asset with the given id? -/
def pageHasAsset (assetId : String) (p : Page) : Bool :=
  p.assets.any (fun x => x.id = assetId)

/-- On how many pages of the album does an asset with this id appear? -/
def pagesWithAsset (a : Album) (assetId : String) : ℕ :=
  a.pages.countP (pageHasAsset assetId)

/-- Filtering an asset id out leaves no asset with that id. -/
theorem any_filter_ne_self (aid : String) (l : List Asset) :
    (l.filter (fun x => x.id ≠ aid)).any (fun x => x.id = aid) = false := by
  rw [List.any_eq_false]
  intro x hx
  rw [List.mem_filter] at hx
  simpa using hx.2

/-- The page map of moveAssetToPage: remove the asset from the source
page, append it with the new coordinates to the destination page. -/
def movePageMap (assetId fromPid toPid : String) (asset : Asset) (nx ny : ℚ)
    (p : Page) : Page :=
  if p.id = fromPid then { p with assets := p.assets.filter (fun x => x.id ≠ assetId) }
  else if p.id = toPid then { p with assets := p.assets ++ [{ asset with x := nx, y := ny }] }
  else p

/-- After the move, the asset appears exactly on the pages whose id is
the destination id. -/
theorem countP_pages_move (pages : List Page) (assetId fromPid toPid : String)
    (asset : Asset) (nx ny : ℚ)
    (hassetId : asset.id = assetId)
    (hsrc : ∀ p ∈ pages, (pageHasAsset assetId p = true ↔ p.id = fromPid))
    (hto1 : pages.countP (fun p => p.id = toPid) = 1)
    (hne : toPid ≠ fromPid) :
    (pages.map (movePageMap assetId fromPid toPid asset nx ny)).countP
      (pageHasAsset assetId) = 1 := by
  rw [List.countP_map]
  have hpoint : ∀ p ∈ pages,
      ((pageHasAsset assetId ∘ movePageMap assetId fromPid toPid asset nx ny) p = true
        ↔ (fun q : Page => decide (q.id = toPid)) p = true) := by
    intro p hp
    simp only [Function.comp, movePageMap]
    by_cases hpf : p.id = fromPid
    · rw [if_pos hpf]
      constructor
      · intro hcon
        rw [show pageHasAsset assetId
            { p with assets := p.assets.filter (fun x => x.id ≠ assetId) }
            = (p.assets.filter (fun x => x.id ≠ assetId)).any
                (fun x => x.id = assetId) from rfl,
          any_filter_ne_self] at hcon
        exact absurd hcon (by simp)
      · intro hcon
        exact absurd (hpf.symm.trans (of_decide_eq_true hcon)).symm hne
    · rw [if_neg hpf]
      by_cases hpt : p.id = toPid
      · rw [if_pos hpt]
        constructor
        · intro _; simpa using hpt
        · intro _
          rw [show pageHasAsset assetId
              { p with assets := p.assets ++ [{ asset with x := nx, y := ny }] }
              = (p.assets ++ [{ asset with x := nx, y := ny }]).any
                  (fun x => x.id = assetId) from rfl]
          simp [hassetId]
      · rw [if_neg hpt]
        constructor
        · intro hcon
          exact absurd ((hsrc p hp).mp hcon) hpf
        · intro hcon
          exact absurd (by simpa using hcon) hpt
  rw [List.countP_congr hpoint]
  exact hto1

/-- C3 (amended): on an unlocked album, if the asset appears on exactly
the source page, the destination page id exists on the album and
differs from the source page id, then moveAssetToPage produces, in one
state transition, an album where the asset again appears on exactly
one page: removed from the source page and appended to the destination
page with the new coordinates, every other page untouched. -/
theorem moveAssetToPage_atomic (s : EditorState) (a : Album) (now : ℕ)
    (assetId fromPid toPid : String) (nx ny : ℚ) (fp : Page) (asset : Asset)
    (ha : s.album = some a)
    (hu : a.config.locked = false)
    (hfp : a.pages.find? (fun p => p.id = fromPid) = some fp)
    (hassetFound : fp.assets.find? (fun x => x.id = assetId) = some asset)
    (hsrc : ∀ p ∈ a.pages, (pageHasAsset assetId p = true ↔ p.id = fromPid))
    (hto1 : a.pages.countP (fun p => p.id = toPid) = 1)
    (hne : toPid ≠ fromPid) :
    ∃ a', (moveAssetToPage s now assetId fromPid toPid nx ny).album = some a' ∧
      pagesWithAsset a' assetId = 1 ∧
      a'.pages.length = a.pages.length ∧
      (∀ i (hi : i < a.pages.length) (hi' : i < a'.pages.length),
        a'.pages.get ⟨i, hi'⟩
          = movePageMap assetId fromPid toPid asset nx ny (a.pages.get ⟨i, hi⟩)) := by
  have hassetId : asset.id = assetId := by
    have := List.find?_some hassetFound
    simpa using this
  have hrun : (moveAssetToPage s now assetId fromPid toPid nx ny).album
      = some { a with
          pages := a.pages.map (movePageMap assetId fromPid toPid asset nx ny)
          updatedAt := now } := by
    simp only [moveAssetToPage, ha, hu, hfp, Option.some_bind, hassetFound,
      Bool.false_eq_true, if_false]
    rw [show (fun (p : Page) =>
        if p.id = fromPid then { p with assets := p.assets.filter (fun x => x.id ≠ assetId) }
        else if p.id = toPid then
          { p with assets := p.assets ++ [{ asset with x := nx, y := ny }] }
        else p) = movePageMap assetId fromPid toPid asset nx ny from rfl]
    exact commitAlbum_album _ _
  refine ⟨_, hrun, ?_, ?_, ?_⟩
  · exact countP_pages_move a.pages assetId fromPid toPid asset nx ny
      hassetId hsrc hto1 hne
  · exact List.length_map _ _
  · intro i hi hi'
    apply List.get_map

/-- A concrete image asset used by the move counterexample. -/
def exAsset1 : Asset :=
  { id := "a1", type := .image, url := "u", x := 0, y := 0,
    width := 10, height := 10, rotation := 0, zIndex := 1 }

/-- A page holding the concrete asset. -/
def exPageWithAsset : Page :=
  { id := "p1", pageNumber := 1, layoutTemplate := "freeform",
    assets := [exAsset1], backgroundColor := "#ffffff" }

/-- A two-page unlocked album holding the asset on its first page. -/
def exAlbumM : Album := mkAlbum "M" [exPageWithAsset, mkPage "p2" 2]

/-- Editor state holding that album. -/
def exStateM : EditorState :=
  { album := some exAlbumM
    history := []
    redoStack := []
    currentPageIndex := 0
    selectedAssetId := none }

/-- Counterexample to C3 as stated: when the destination page id
equals the source page id, moveAssetToPage removes the asset in the
source branch of the page map and never re-adds it, so the asset ends
up on zero pages instead of exactly one. -/
theorem moveAssetToPage_same_page_loses_asset :
    exAlbumM.config.locked = false ∧
    pagesWithAsset exAlbumM "a1" = 1 ∧
    pagesWithAsset ((moveAssetToPage exStateM 9 "a1" "p1" "p1" 5 5).album.getD exAlbumM)
      "a1" = 0 := by
  decide

/-- Witness for the amended C3: moving the concrete asset from page p1
to the distinct existing page p2, via the atomicity theorem. -/
theorem moveAssetToPage_atomic_witness :
    pagesWithAsset exAlbumM "a1" = 1 ∧
    (∃ a', (moveAssetToPage exStateM 9 "a1" "p1" "p2" 5 6).album = some a' ∧
      pagesWithAsset a' "a1" = 1 ∧
      a'.pages.length = exAlbumM.pages.length ∧
      (∀ i (hi : i < exAlbumM.pages.length) (hi' : i < a'.pages.length),
        a'.pages.get ⟨i, hi'⟩
          = movePageMap "a1" "p1" "p2" exAsset1 5 6 (exAlbumM.pages.get ⟨i, hi⟩))) :=
  ⟨by decide,
   moveAssetToPage_atomic exStateM exAlbumM 9 "a1" "p1" "p2" 5 6
     exPageWithAsset exAsset1 rfl rfl (by decide) (by decide) (by decide)
     (by decide) (by decide)⟩

/-- The zIndex target computed by updateAssetZIndex: the page maximum
(with 0 included, as Math.max(...zIndexes, 0)) plus one for front, the
page minimum (with 0 included) minus one for back. -/
def zTarget (page : Page) : ZDirection → ℤ
  | .front => listMaxZ (page.assets.map (fun x => x.zIndex)) + 1
  | .back => listMinZ (page.assets.map (fun x => x.zIndex)) - 1

/-- The page map of updateAsset restricted to a zIndex update: only the
addressed asset of the addressed page changes, and only its zIndex. -/
def zIndexPageMap (aid : String) (newZ : ℤ) (pid : String) (p : Page) : Page :=
  if p.id = pid then
    { p with assets := p.assets.map (fun x =>
        if x.id = aid then { x with zIndex := newZ } else x) }
  else p

/-- C4 (amended): on an unlocked album, for a page and an asset found
on it, updateAssetZIndex with direction front sets that asset's zIndex
to max(0, maximum zIndex among the page's assets) + 1, and with
direction back to min(0, minimum zIndex among the page's assets) - 1
(the source includes 0 in the Math.max / Math.min spread); no other
asset and no other page changes. -/
theorem updateAssetZIndex_spec (s : EditorState) (a : Album) (now : ℕ)
    (pid aid : String) (dir : ZDirection) (page : Page) (asset : Asset)
    (ha : s.album = some a)
    (hu : a.config.locked = false)
    (hpage : a.pages.find? (fun p => p.id = pid) = some page)
    (hasset : page.assets.find? (fun x => x.id = aid) = some asset) :
    ∃ a', (updateAssetZIndex s now pid aid dir).album = some a' ∧
      a'.pages = a.pages.map (zIndexPageMap aid (zTarget page dir) pid) := by
  cases dir with
  | front =>
      refine ⟨{ a with
        pages := a.pages.map (zIndexPageMap aid (zTarget page ZDirection.front) pid)
        updatedAt := now }, ?_, rfl⟩
      simp only [updateAssetZIndex, ha, hu, hpage, hasset, updateAsset,
        Bool.false_eq_true, if_false]
      exact commitAlbum_album _ _
  | back =>
      refine ⟨{ a with
        pages := a.pages.map (zIndexPageMap aid (zTarget page ZDirection.back) pid)
        updatedAt := now }, ?_, rfl⟩
      simp only [updateAssetZIndex, ha, hu, hpage, hasset, updateAsset,
        Bool.false_eq_true, if_false]
      exact commitAlbum_album _ _

/-- An image asset with a chosen zIndex, for the zIndex examples. -/
def exAssetZ (id : String) (z : ℤ) : Asset :=
  { id := id, type := .image, url := "u", x := 0, y := 0,
    width := 10, height := 10, rotation := 0, zIndex := z }

/-- A page holding two assets with zIndex 3 and 5. -/
def exPageZ : Page :=
  { id := "p1", pageNumber := 1, layoutTemplate := "freeform",
    assets := [exAssetZ "a" 3, exAssetZ "b" 5], backgroundColor := "#ffffff" }

/-- Unlocked album holding that page. -/
def exAlbumZ : Album := mkAlbum "Z" [exPageZ]

/-- Editor state holding that album. -/
def exStateZ : EditorState :=
  { album := some exAlbumZ
    history := []
    redoStack := []
    currentPageIndex := 0
    selectedAssetId := none }

/-- The zIndex an asset ends up with on an album, for the examples. -/
def assetZOf (a : Album) (pid aid : String) : Option ℤ :=
  ((a.pages.find? (fun p => p.id = pid)).bind
    (fun p => p.assets.find? (fun x => x.id = aid))).map (fun x => x.zIndex)

/-- Counterexample to C4 as stated: on a page whose assets have zIndex
3 and 5, sending the zIndex-3 asset to the back yields zIndex -1
(because the source includes 0 in the Math.min spread), not the
minimum sibling zIndex minus one, which would be 2 (or 4 if the asset
itself does not count as its own sibling). -/
theorem updateAssetZIndex_includes_zero :
    exAlbumZ.config.locked = false ∧
    assetZOf exAlbumZ "p1" "a" = some 3 ∧
    assetZOf exAlbumZ "p1" "b" = some 5 ∧
    assetZOf ((updateAssetZIndex exStateZ 9 "p1" "a" ZDirection.back).album.getD exAlbumZ)
      "p1" "a" = some (-1) ∧
    some (-1 : ℤ) ≠ some (3 - 1 : ℤ) ∧ some (-1 : ℤ) ≠ some (5 - 1 : ℤ) := by
  decide

/-- Witness for the amended C4: sending the zIndex-3 asset to the
front on the concrete album, via the zIndex theorem. -/
theorem updateAssetZIndex_spec_witness :
    exStateZ.album = some exAlbumZ ∧
    zTarget exPageZ ZDirection.front = 6 ∧
    (∃ a', (updateAssetZIndex exStateZ 9 "p1" "a" ZDirection.front).album = some a' ∧
      a'.pages = exAlbumZ.pages.map
        (zIndexPageMap "a" (zTarget exPageZ ZDirection.front) "p1")) :=
  ⟨rfl, by decide,
   updateAssetZIndex_spec exStateZ exAlbumZ 9 "p1" "a" ZDirection.front exPageZ
     (exAssetZ "a" 3) rfl rfl (by decide) (by decide)⟩

/-- In a duplicate-free list an element determines its index. -/
theorem getElem?_some_inj (l : List Page) (i j : ℕ) (x : Page) (hnd : l.Nodup)
    (hi : l[i]? = some x) (hj : l[j]? = some x) : i = j := by
  have hlen : i < l.length := by
    by_contra hcon
    rw [List.getElem?_eq_none (le_of_not_lt hcon)] at hi
    exact Option.noConfusion hi
  exact List.getElem?_inj hlen hnd (hi.trans hj.symm)

/-- C8 (amended): getSpread is a deterministic function of the album
and index (it is a pure function of them), and on albums whose pages
are pairwise distinct and where the cover-front template appears only
at index 0, the pairing is symmetric: if getSpread(i) = [p, q] and q
is the page at index j, then getSpread(j) = [p, q]. -/
theorem getSpread_symmetric (album : Album) (i j : ℕ) (p q : Page)
    (hnd : album.pages.Nodup)
    (hcf : ∀ k (hk : k < album.pages.length),
      (album.pages.get ⟨k, hk⟩).layoutTemplate = "cover-front" → k = 0)
    (hij : getSpread album i = [p, q])
    (hj : album.pages[j]? = some q) :
    getSpread album j = [p, q] := by
  cases hpi : album.pages[i]? with
  | none => simp [getSpread, hpi] at hij
  | some page =>
    simp only [getSpread, hpi] at hij
    by_cases hsv : album.config.useSpreadView
    case neg => simp [hsv] at hij
    case pos =>
    by_cases hpcf : page.layoutTemplate = "cover-front"
    case pos => simp [hsv, hpcf] at hij
    case neg =>
    by_cases hpcb : page.layoutTemplate = "cover-back"
    case pos => simp [hsv, hpcf, hpcb] at hij
    case neg =>
    by_cases hpar : i % 2 = 1
    · -- odd index: page is the left member, q is the next page
      cases hnext : album.pages[i + 1]? with
      | none => simp [hsv, hpcf, hpcb, hpar, hnext] at hij
      | some nextPage =>
        by_cases hnb : nextPage.layoutTemplate = "cover-back"
        case pos => simp [hsv, hpcf, hpcb, hpar, hnext, hnb] at hij
        case neg =>
        simp [hsv, hpcf, hpcb, hpar, hnext, hnb] at hij
        obtain ⟨hp, hq⟩ := hij
        subst hp
        subst hq
        have hji : j = i + 1 := getElem?_some_inj album.pages j (i + 1) nextPage hnd hj hnext
        subst hji
        have hqcf : ¬ (nextPage.layoutTemplate = "cover-front") := by
          intro hcon
          have hl : i + 1 < album.pages.length := by
            by_contra hcon2
            rw [List.getElem?_eq_none (le_of_not_lt hcon2)] at hnext
            exact Option.noConfusion hnext
          have hg : album.pages.get ⟨i + 1, hl⟩ = nextPage := by
            have hge := List.getElem?_eq_getElem hl
            rw [hge] at hnext
            exact Option.some.inj hnext
          have := hcf (i + 1) hl (by rw [hg]; exact hcon)
          omega
        have hpar2 : ¬ ((i + 1) % 2 = 1) := by omega
        have hne0 : ¬ (i + 1 = 0) := by omega
        simp [getSpread, hnext, hsv, hqcf, hnb, hpar2, hne0,
          Nat.add_sub_cancel, hpi, hpcf]
    · -- even index: q is the page at index i itself, so j = i
      by_cases hi0 : i = 0
      case pos => simp [hsv, hpcf, hpcb, hpar, hi0] at hij
      case neg =>
      cases hprev : album.pages[i - 1]? with
      | none => simp [hsv, hpcf, hpcb, hpar, hi0, hprev] at hij
      | some prevPage =>
        by_cases hpf : prevPage.layoutTemplate = "cover-front"
        case pos => simp [hsv, hpcf, hpcb, hpar, hi0, hprev, hpf] at hij
        case neg =>
        simp [hsv, hpcf, hpcb, hpar, hi0, hprev, hpf] at hij
        obtain ⟨hp, hq⟩ := hij
        subst hp
        subst hq
        have hji : j = i := getElem?_some_inj album.pages j i page hnd hj hpi
        subst hji
        simp [getSpread, hpi, hsv, hpcf, hpcb, hpar, hi0, hprev, hpf]

/-- An album with a cover-front template at an interior index, used by
the getSpread counterexample. -/
def exAlbumS : Album :=
  mkAlbum "S" [mkPage "q1" 1, mkPage "q2" 2, mkPage "q3" 3 "cover-front"]

/-- Counterexample to C8 as stated: with a cover-front page at index 2,
getSpread(1) pairs pages 1 and 2 (the left-member branch only excludes
a cover-back neighbour), but getSpread(2) shows the cover page solo,
so the pairing is not symmetric on arbitrary albums. -/
theorem getSpread_cover_mid_asymmetric :
    exAlbumS.config.useSpreadView = true ∧
    getSpread exAlbumS 1 = [mkPage "q2" 2, mkPage "q3" 3 "cover-front"] ∧
    exAlbumS.pages[2]? = some (mkPage "q3" 3 "cover-front") ∧
    getSpread exAlbumS 2 ≠ [mkPage "q2" 2, mkPage "q3" 3 "cover-front"] := by
  decide

/-- A well-formed album (covers only at the ends) for the getSpread
witness. -/
def exAlbumG : Album :=
  mkAlbum "G" [mkPage "r1" 1 "cover-front", mkPage "r2" 2, mkPage "r3" 3,
    mkPage "r4" 4 "cover-back"]

/-- Witness for the amended C8: on the well-formed album, getSpread(1)
pairs pages r2 and r3, r3 sits at index 2, and getSpread(2) returns
the same pair, by the symmetry theorem. -/
theorem getSpread_symmetric_witness :
    getSpread exAlbumG 1 = [mkPage "r2" 2, mkPage "r3" 3] ∧
    exAlbumG.pages[2]? = some (mkPage "r3" 3) ∧
    getSpread exAlbumG 2 = [mkPage "r2" 2, mkPage "r3" 3] :=
  ⟨by decide, by decide,
   getSpread_symmetric exAlbumG 1 2 (mkPage "r2" 2) (mkPage "r3" 3)
     (by decide)
     (fun k hk => by
        have hk4 : k < 4 := by simpa [exAlbumG, mkAlbum] using hk
        interval_cases k
        · exact fun _ => rfl
        · intro hcon
          have hcon2 : (exAlbumG.pages.get ⟨1, by decide⟩).layoutTemplate
              = "cover-front" := hcon
          revert hcon2; decide
        · intro hcon
          have hcon2 : (exAlbumG.pages.get ⟨2, by decide⟩).layoutTemplate
              = "cover-front" := hcon
          revert hcon2; decide
        · intro hcon
          have hcon2 : (exAlbumG.pages.get ⟨3, by decide⟩).layoutTemplate
              = "cover-front" := hcon
          revert hcon2; decide)
     (by decide) (by decide)⟩

/-- The slot-filling loop produces one asset per slot. -/
theorem fillSlots_length (gen : ℕ → String) (media : List Asset) :
    ∀ (slots : List LayoutSlot) (n : ℕ), (fillSlots gen media n slots).length = slots.length := by
  intro slots
  induction slots with
  | nil => intro n; rfl
  | cons slot rest ih => intro n; simp [fillSlots, ih]

/-- The k-th filled slot holds the (n+k)-th pooled media asset when one
exists and a generated placeholder otherwise, positioned by the slot. -/
theorem fillSlots_get (gen : ℕ → String) (media : List Asset) :
    ∀ (slots : List LayoutSlot) (n kk : ℕ) (hk : kk < slots.length)
      (hk' : kk < (fillSlots gen media n slots).length),
      (fillSlots gen media n slots).get ⟨kk, hk'⟩ =
        updateAssetPosition
          (match media.get? (n + kk) with
           | some m => m
           | none => createPlaceholder (gen (n + kk)) (slots.get ⟨kk, hk⟩).z_index)
          (slots.get ⟨kk, hk⟩) := by
  intro slots
  induction slots with
  | nil => intro n kk hk; exact absurd hk (by simp)
  | cons slot rest ih =>
      intro n kk hk hk'
      cases kk with
      | zero => simp [fillSlots]
      | succ kt =>
          have hk2 : kt < rest.length := by simpa using hk
          have hk2' : kt < (fillSlots gen media (n + 1) rest).length := by
            rw [fillSlots_length]; exact hk2
          have := ih (n + 1) kt hk2 hk2'
          simp only [fillSlots, List.get_cons_succ]
          rw [show n + 1 + kt = n + (kt + 1) by omega] at this
          exact this

/-- Indexing an append past the left part reaches the right part. -/
theorem get_append_offset (l1 l2 : List Asset) (kk : ℕ) (hl : kk < l2.length)
    (h2 : l1.length + kk < (l1 ++ l2).length) :
    (l1 ++ l2).get ⟨l1.length + kk, h2⟩ = l2.get ⟨kk, hl⟩ := by
  induction l1 with
  | nil => simp
  | cons x t ih =>
      have h3 : t.length + kk < (t ++ l2).length := by
        simp only [List.length_append]
        omega
      have := ih h3
      simpa [Nat.succ_add] using this

/-- C6: applying a non-spread layout with k slots to a page (default
left-page target) yields exactly one page update: the non-media assets
are preserved unchanged as a prefix, followed by exactly k
slot-positioned assets, of which the first min(m, k) are the page's
media assets in their existing order and the rest are generated
placeholders with empty url and isPlaceholder true; media beyond the
first k slots do not appear (the asset list is fully characterized by
these clauses). -/
theorem calculateLayoutApplication_single (gen : ℕ → String) (layout : AlbumLayout)
    (page : Page) (rightPage : Option Page)
    (hspread : layout.is_spread = false) :
    ∃ u, calculateLayoutApplication gen layout (some page) rightPage none = [u] ∧
      u.pageId = page.id ∧
      u.layoutTemplate = layout.name ∧
      u.assets.length
        = (page.assets.filter (fun a => ¬ isMediaAsset a)).length + layout.config.length ∧
      u.assets.take (page.assets.filter (fun a => ¬ isMediaAsset a)).length
        = page.assets.filter (fun a => ¬ isMediaAsset a) ∧
      (∀ kk (hk : kk < layout.config.length)
          (h2 : (page.assets.filter (fun a => ¬ isMediaAsset a)).length + kk
                  < u.assets.length)
          (hm : kk < (page.assets.filter isMediaAsset).length),
        u.assets.get ⟨(page.assets.filter (fun a => ¬ isMediaAsset a)).length + kk, h2⟩
          = updateAssetPosition ((page.assets.filter isMediaAsset).get ⟨kk, hm⟩)
              (layout.config.get ⟨kk, hk⟩)) ∧
      (∀ kk (hk : kk < layout.config.length)
          (h2 : (page.assets.filter (fun a => ¬ isMediaAsset a)).length + kk
                  < u.assets.length),
        (page.assets.filter isMediaAsset).length ≤ kk →
        u.assets.get ⟨(page.assets.filter (fun a => ¬ isMediaAsset a)).length + kk, h2⟩
            = updateAssetPosition
                (createPlaceholder (gen kk) (layout.config.get ⟨kk, hk⟩).z_index)
                (layout.config.get ⟨kk, hk⟩) ∧
        (u.assets.get
            ⟨(page.assets.filter (fun a => ¬ isMediaAsset a)).length + kk, h2⟩).url = "" ∧
        (u.assets.get
            ⟨(page.assets.filter (fun a => ¬ isMediaAsset a)).length + kk, h2⟩).isPlaceholder
          = some true) := by
  refine ⟨{ pageId := page.id
            assets := page.assets.filter (fun a => ¬ isMediaAsset a)
              ++ fillSlots gen (page.assets.filter isMediaAsset) 0 layout.config
            layoutTemplate := layout.name }, ?_, rfl, rfl, ?_, ?_, ?_, ?_⟩
  · simp [calculateLayoutApplication, hspread]
  · simp [fillSlots_length]
  · exact List.take_left _ _
  · intro kk hk h2 hm
    have hfl : kk < (fillSlots gen (page.assets.filter isMediaAsset) 0 layout.config).length := by
      rw [fillSlots_length]; exact hk
    have hstep := get_append_offset (page.assets.filter (fun a => ¬ isMediaAsset a))
      (fillSlots gen (page.assets.filter isMediaAsset) 0 layout.config) kk hfl h2
    have hslot := fillSlots_get gen (page.assets.filter isMediaAsset) layout.config 0 kk hk hfl
    rw [Nat.zero_add] at hslot
    rw [List.get?_eq_get hm] at hslot
    exact hstep.trans hslot
  · intro kk hk h2 hge
    have hfl : kk < (fillSlots gen (page.assets.filter isMediaAsset) 0 layout.config).length := by
      rw [fillSlots_length]; exact hk
    have hstep := get_append_offset (page.assets.filter (fun a => ¬ isMediaAsset a))
      (fillSlots gen (page.assets.filter isMediaAsset) 0 layout.config) kk hfl h2
    have hslot := fillSlots_get gen (page.assets.filter isMediaAsset) layout.config 0 kk hk hfl
    rw [Nat.zero_add] at hslot
    rw [List.get?_eq_none.mpr hge] at hslot
    have hmain := hstep.trans hslot
    refine ⟨hmain, ?_, ?_⟩
    · rw [hmain]
      rfl
    · rw [hmain]
      rfl


/-- A simple layout slot for the layout examples. -/
def exSlot (i : ℕ) : LayoutSlot :=
  { x := some (i * 30), y := some 10, width := 30, height := 40, z_index := (i : ℤ) }

/-- A three-slot non-spread layout. -/
def exLayout3 : AlbumLayout :=
  { name := "grid3", is_spread := false, config := [exSlot 0, exSlot 1, exSlot 2] }

/-- An image asset for the layout examples. -/
def exImg (id : String) : Asset :=
  { id := id, type := .image, url := "u", x := 0, y := 0,
    width := 10, height := 10, rotation := 0, zIndex := 1 }

/-- A page holding five images. -/
def exPage5 : Page :=
  { id := "pg5", pageNumber := 1, layoutTemplate := "freeform",
    assets := [exImg "i1", exImg "i2", exImg "i3", exImg "i4", exImg "i5"],
    backgroundColor := "#ffffff" }

/-- A page holding one image. -/
def exPage1 : Page :=
  { id := "pg1", pageNumber := 1, layoutTemplate := "freeform",
    assets := [exImg "i1"], backgroundColor := "#ffffff" }

/-- Placeholder id generator for the layout examples. -/
def exGen : ℕ → String := fun n => "ph" ++ toString n

/-- Witness for C6: the three-slot layout applied to the five-image
page via the layout theorem, plus the spec's example counts: five
images give 3 positioned assets and 0 placeholders, one image gives 3
assets of which 2 are placeholders. -/
theorem calculateLayoutApplication_single_witness :
    exLayout3.is_spread = false ∧
    (∃ u, calculateLayoutApplication exGen exLayout3 (some exPage5) none none = [u] ∧
      u.pageId = exPage5.id ∧
      u.layoutTemplate = exLayout3.name ∧
      u.assets.length
        = (exPage5.assets.filter (fun a => ¬ isMediaAsset a)).length
            + exLayout3.config.length ∧
      u.assets.take (exPage5.assets.filter (fun a => ¬ isMediaAsset a)).length
        = exPage5.assets.filter (fun a => ¬ isMediaAsset a) ∧
      (∀ kk (hk : kk < exLayout3.config.length)
          (h2 : (exPage5.assets.filter (fun a => ¬ isMediaAsset a)).length + kk
                  < u.assets.length)
          (hm : kk < (exPage5.assets.filter isMediaAsset).length),
        u.assets.get ⟨(exPage5.assets.filter (fun a => ¬ isMediaAsset a)).length + kk, h2⟩
          = updateAssetPosition ((exPage5.assets.filter isMediaAsset).get ⟨kk, hm⟩)
              (exLayout3.config.get ⟨kk, hk⟩)) ∧
      (∀ kk (hk : kk < exLayout3.config.length)
          (h2 : (exPage5.assets.filter (fun a => ¬ isMediaAsset a)).length + kk
                  < u.assets.length),
        (exPage5.assets.filter isMediaAsset).length ≤ kk →
        u.assets.get ⟨(exPage5.assets.filter (fun a => ¬ isMediaAsset a)).length + kk, h2⟩
            = updateAssetPosition
                (createPlaceholder (exGen kk) (exLayout3.config.get ⟨kk, hk⟩).z_index)
                (exLayout3.config.get ⟨kk, hk⟩) ∧
        (u.assets.get
            ⟨(exPage5.assets.filter (fun a => ¬ isMediaAsset a)).length + kk, h2⟩).url
          = "" ∧
        (u.assets.get
            ⟨(exPage5.assets.filter (fun a => ¬ isMediaAsset a)).length + kk, h2⟩).isPlaceholder
          = some true)) ∧
    ((calculateLayoutApplication exGen exLayout3 (some exPage5) none none).map
        (fun u => u.assets.countP (fun x => x.isPlaceholder = some true)) = [0]) ∧
    ((calculateLayoutApplication exGen exLayout3 (some exPage5) none none).map
        (fun u => u.assets.length) = [3]) ∧
    ((calculateLayoutApplication exGen exLayout3 (some exPage1) none none).map
        (fun u => u.assets.countP (fun x => x.isPlaceholder = some true)) = [2]) ∧
    ((calculateLayoutApplication exGen exLayout3 (some exPage1) none none).map
        (fun u => u.assets.length) = [3]) :=
  ⟨rfl, calculateLayoutApplication_single exGen exLayout3 exPage5 none rfl,
   by decide, by decide, by decide, by decide⟩

/-- Distinct column boundaries are at least one column width apart. -/
theorem colPos_sep (i j : ℕ) (hij : i ≠ j) : 100 / 12 ≤ |colPos i - colPos j| := by
  have hdiff : colPos i - colPos j = ((i : ℚ) - (j : ℚ)) * (100 / 12) := by
    unfold colPos; ring
  have hone : (1 : ℚ) ≤ |(i : ℚ) - (j : ℚ)| := by
    have hz : ((i : ℤ) - (j : ℤ)) ≠ 0 := fun hcon => hij (by omega)
    have hint : (1 : ℤ) ≤ |(i : ℤ) - (j : ℤ)| := Int.one_le_abs hz
    have hcast : ((1 : ℤ) : ℚ) ≤ ((|(i : ℤ) - (j : ℤ)| : ℤ) : ℚ) := by exact_mod_cast hint
    push_cast at hcast
    simpa using hcast
  rw [hdiff, abs_mul, abs_of_pos (show (0 : ℚ) < 100 / 12 by norm_num)]
  calc (100 / 12 : ℚ) = 1 * (100 / 12) := by ring
    _ ≤ |(i : ℚ) - (j : ℚ)| * (100 / 12) := by
        apply mul_le_mul_of_nonneg_right hone
        norm_num

/-- A grid iteration where neither edge is within threshold leaves the
state unchanged. -/
theorem gridColStep_no_fire (w : ℚ) (sx : ℚ) (gs : List Guide) (j : ℕ)
    (h1 : 1 ≤ |sx - colPos j|) (h2 : 1 ≤ |sx + w - colPos j|) :
    gridColStep w (sx, gs) j = (sx, gs) := by
  have h1' : ¬ (|sx - colPos j| < 1) := not_lt.mpr h1
  have h2' : ¬ (|sx + w - colPos j| < 1) := not_lt.mpr h2
  simp [gridColStep, jsAbs_eq_abs, h1', h2']

/-- A run of grid iterations with no rule within threshold leaves the
state unchanged. -/
theorem gridFold_no_fire (w : ℚ) (L : List ℕ) :
    ∀ (sx : ℚ) (gs : List Guide),
      (∀ j ∈ L, 1 ≤ |sx - colPos j| ∧ 1 ≤ |sx + w - colPos j|) →
      L.foldl (gridColStep w) (sx, gs) = (sx, gs) := by
  induction L with
  | nil => intro sx gs _; rfl
  | cons j t ih =>
      intro sx gs h
      rw [List.foldl_cons,
        gridColStep_no_fire w sx gs j (h j (by simp)).1 (h j (by simp)).2]
      exact ih sx gs (fun k hk => h k (by simp [hk]))

/-- The full grid loop when exactly the left edge matches boundary i:
the fold snaps to that boundary and emits exactly its guide. -/
theorem gridFold_fire (w : ℚ) (n i : ℕ) (hin : i ≤ n) (sx : ℚ)
    (hleft : |sx - colPos i| < 1)
    (hright : ∀ j, j ≤ n → 1 ≤ |sx + w - colPos j| ∧ 1 ≤ |colPos i + w - colPos j|) :
    (List.range (n + 1)).foldl (gridColStep w) (sx, []) =
      (colPos i, [Guide.mk .v (colPos i)]) := by
  have hsep : ∀ j : ℕ, j ≠ i → 1 ≤ |sx - colPos j| := by
    intro j hj
    have h1 := colPos_sep i j (fun hc => hj hc.symm)
    have h2 : |colPos i - colPos j| - |sx - colPos i| ≤ |sx - colPos j| := by
      have htri : |colPos i - colPos j| ≤ |colPos i - sx| + |sx - colPos j| :=
        abs_sub_le _ _ _
      rw [abs_sub_comm (colPos i) sx] at htri
      linarith
    linarith
  have hsplit : List.range (n + 1) = List.range' 0 i ++ i :: List.range' (i + 1) (n - i) := by
    rw [List.range_eq_range']
    rw [show n + 1 = (n - i + 1) + i by omega]
    rw [← List.range'_append 0 i (n - i + 1) 1]
    congr 1
    rw [show 0 + 1 * i = i by omega]
    rw [List.range'_succ]
  rw [hsplit, List.foldl_append]
  rw [gridFold_no_fire w (List.range' 0 i) sx []
    (fun j hj => by
      have hjlt : j < i := by
        have := List.mem_range'_1.mp hj
        omega
      exact ⟨hsep j (by omega), (hright j (by omega)).1⟩)]
  rw [List.foldl_cons]
  have hstep : gridColStep w (sx, []) i = (colPos i, [Guide.mk .v (colPos i)]) := by
    have hw : (1 : ℚ) ≤ |w| := by
      have h := (hright i hin).2
      simpa using h
    have h2' : ¬ (|w| < 1) := not_lt.mpr hw
    simp [gridColStep, jsAbs_eq_abs, hleft, h2']
  rw [hstep]
  exact gridFold_no_fire w (List.range' (i + 1) (n - i)) (colPos i) _
    (fun j hj => by
      have hjr : i + 1 ≤ j ∧ j < i + 1 + (n - i) := List.mem_range'_1.mp hj
      refine ⟨?_, (hright j (by omega)).2⟩
      calc (1 : ℚ) ≤ 100 / 12 := by norm_num
        _ ≤ |colPos i - colPos j| := colPos_sep i j (by omega))

/-- A sibling iteration where neither the left-edge rule nor the
center rule is within threshold leaves the state unchanged. -/
theorem siblingStep_no_fire (r : DragRect) (sx : ℚ) (gs : List Guide) (t : Asset)
    (h1 : 1 ≤ jsAbs (r.x - t.x))
    (h2 : 1 ≤ jsAbs (r.x + r.w / 2 - (t.x + t.width / 2))) :
    siblingStep r (sx, gs) t = (sx, gs) := by
  have h1' : ¬ (jsAbs (r.x - t.x) < 1) := not_lt.mpr h1
  have h2' : ¬ (jsAbs (r.x + r.w / 2 - (t.x + t.width / 2)) < 1) := not_lt.mpr h2
  simp [siblingStep, h1', h2']

/-- A run of sibling iterations, every sibling outside the threshold
of both sibling rules, leaves the state unchanged.  The conditions
only read the original dragged rectangle, never the accumulator. -/
theorem siblingFold_no_fire (r : DragRect) (L : List Asset) :
    ∀ (sx : ℚ) (gs : List Guide),
      (∀ t ∈ L, 1 ≤ jsAbs (r.x - t.x) ∧ 1 ≤ jsAbs (r.x + r.w / 2 - (t.x + t.width / 2))) →
      L.foldl (siblingStep r) (sx, gs) = (sx, gs) := by
  induction L with
  | nil => intro sx gs _; rfl
  | cons t ts ih =>
      intro sx gs h
      rw [List.foldl_cons,
        siblingStep_no_fire r sx gs t (h t (by simp)).1 (h t (by simp)).2]
      exact ih sx gs (fun k hk => h k (by simp [hk]))

/-- C5 (amended): in single-page or spread view, if the ROUNDED left
edge of the dragged rectangle (the source first rounds the position to
the nearest whole percent) is within 1 unit of the column boundary
i*(100/12) (i up to 12 in single-page view, up to 24 in spread view)
and no other snapping rule is within threshold (right grid edge, page
center, bleed lines, every visible sibling asset's left edge and
center, and in spread view the spread center), then the snap
computation returns snappedX equal to that exact boundary and the
guides list contains a vertical guide at it.  The unrounded form of
the claim fails: see the counterexample. -/
theorem findSnappingPoints_grid_snap (hasNextPage : Bool) (assets : List Asset)
    (did : String) (r : DragRect) (i : ℕ)
    (hi : i ≤ if hasNextPage then 24 else 12)
    (hleft : jsAbs (jsRound r.x - colPos i) < 1)
    (hright : ∀ j, j ≤ (if hasNextPage then 24 else 12) →
      1 ≤ jsAbs (jsRound r.x + r.w - colPos j) ∧ 1 ≤ jsAbs (colPos i + r.w - colPos j))
    (hcenter : 1 ≤ jsAbs (r.x + r.w / 2 - 50))
    (hbleedl : 1 ≤ jsAbs (r.x - 3))
    (hbleedr : 1 ≤ jsAbs (r.x + r.w - ((if hasNextPage then (200 : ℚ) else 100) - 3)))
    (hsib : ∀ t ∈ assets.filter (fun a => a.id ≠ did ∧ ¬ (a.isHidden.getD false)),
      1 ≤ jsAbs (r.x - t.x) ∧ 1 ≤ jsAbs (r.x + r.w / 2 - (t.x + t.width / 2)))
    (hspread : hasNextPage = true → 1 ≤ jsAbs (r.x + r.w / 2 - 100)) :
    (findSnappingPoints hasNextPage assets did r).snappedX = colPos i ∧
    Guide.mk .v (colPos i) ∈ (findSnappingPoints hasNextPage assets did r).guides := by
  simp only [jsAbs_eq_abs] at hleft hright
  have hc : ¬ (jsAbs (r.x + r.w / 2 - 50) < 1) := not_lt.mpr hcenter
  have hb1 : ¬ (jsAbs (r.x - 3) < 1) := not_lt.mpr hbleedl
  have hb2 : ¬ (jsAbs (r.x + r.w - ((if hasNextPage then (200 : ℚ) else 100) - 3)) < 1) :=
    not_lt.mpr hbleedr
  have hsp : ¬ (hasNextPage = true ∧ jsAbs (r.x + r.w / 2 - 100) < 1) :=
    fun hcon => absurd hcon.2 (not_lt.mpr (hspread hcon.1))
  have hsibfold : ∀ (sx : ℚ) (gs : List Guide),
      (assets.filter (fun a => a.id ≠ did ∧ ¬ (a.isHidden.getD false))).foldl
        (siblingStep r) (sx, gs) = (sx, gs) :=
    fun sx gs => siblingFold_no_fire r _ sx gs hsib
  have hfold := gridFold_fire r.w (if hasNextPage then 24 else 12) i hi (jsRound r.x)
    hleft hright
  simp only [findSnappingPoints]
  rw [hfold]
  by_cases hy : jsAbs (r.y + r.h / 2 - 50) < 1 <;>
    · simp [hy, hc, hb1, hb2, hsp] at hsibfold ⊢
      rw [hsibfold]
      simp

/-- Counterexample to C5 as stated: the rectangle with left edge 7.4 is
within 1 unit of the boundary 100/12 = 8.333..., but the source first
rounds 7.4 to 7, which is no longer within threshold of the boundary,
so no grid snap happens: snappedX stays 7 and no vertical guide at the
boundary is emitted. -/
theorem findSnappingPoints_unrounded_fails :
    jsAbs ((37 / 5 : ℚ) - colPos 1) < 1 ∧
    (findSnappingPoints false [] "d" ⟨37 / 5, 30, 50, 10⟩).snappedX ≠ colPos 1 ∧
    ¬ (Guide.mk .v (colPos 1) ∈
        (findSnappingPoints false [] "d" ⟨37 / 5, 30, 50, 10⟩).guides) := by
  have hr : jsRound (37 / 5 : ℚ) = 7 := by
    unfold jsRound
    norm_num [Int.floor_eq_iff]
  have hr30 : jsRound (30 : ℚ) = 30 := by
    unfold jsRound
    norm_num [Int.floor_eq_iff]
  have hnof : (List.range (12 + 1)).foldl (gridColStep 50) ((7 : ℚ), ([] : List Guide))
      = ((7 : ℚ), ([] : List Guide)) := by
    apply gridFold_no_fire
    intro j hj
    have hj13 : j < 13 := List.mem_range.mp hj
    refine ⟨?_, ?_⟩ <;>
      · rw [← jsAbs_eq_abs]
        interval_cases j <;> norm_num [jsAbs, colPos]
  have heval : findSnappingPoints false [] "d" ⟨37 / 5, 30, 50, 10⟩
      = ⟨7, 30, []⟩ := by
    simp only [findSnappingPoints, Bool.false_eq_true, if_false, ite_false,
      List.filter_nil, List.foldl_nil, hr, hr30]
    rw [hnof]
    norm_num [jsAbs]
  refine ⟨by norm_num [jsAbs, colPos], ?_, ?_⟩
  · rw [heval]
    norm_num [colPos]
  · rw [heval]
    simp

/-- A visible sibling asset far from the dragged rectangle: present on
the page but outside the snapping threshold of both sibling rules. -/
def exSibAsset : Asset :=
  { id := "s1", type := .image, url := "u", x := 60, y := 10,
    width := 10, height := 10, rotation := 0, zIndex := 1 }

/-- Witness for the amended C5, at two concrete inputs: in single-page
view a rectangle with left edge 8 (rounded edge 8, within 1/3 of the
boundary 100/12) next to a visible sibling asset outside the threshold
snaps to boundary 1, and in spread view a rectangle with left edge 108
snaps to boundary 13 of the 24-column grid. -/
theorem findSnappingPoints_grid_snap_witness :
    jsAbs (jsRound (8 : ℚ) - colPos 1) < 1 ∧
    1 ≤ jsAbs ((8 : ℚ) - exSibAsset.x) ∧
    (findSnappingPoints false [exSibAsset] "d" ⟨8, 30, 4, 10⟩).snappedX = colPos 1 ∧
    Guide.mk .v (colPos 1) ∈
      (findSnappingPoints false [exSibAsset] "d" ⟨8, 30, 4, 10⟩).guides ∧
    (findSnappingPoints true [] "d" ⟨108, 30, 4, 10⟩).snappedX = colPos 13 ∧
    Guide.mk .v (colPos 13) ∈
      (findSnappingPoints true [] "d" ⟨108, 30, 4, 10⟩).guides := by
  have hr8 : jsRound (8 : ℚ) = 8 := by
    unfold jsRound
    norm_num [Int.floor_eq_iff]
  have hr108 : jsRound (108 : ℚ) = 108 := by
    unfold jsRound
    norm_num [Int.floor_eq_iff]
  have hleftA : jsAbs (jsRound (8 : ℚ) - colPos 1) < 1 := by
    rw [hr8]
    norm_num [jsAbs, colPos]
  have hrightA : ∀ j, j ≤ (if (false : Bool) then 24 else 12) →
      1 ≤ jsAbs (jsRound (8 : ℚ) + 4 - colPos j) ∧ 1 ≤ jsAbs (colPos 1 + 4 - colPos j) := by
    intro j hj
    have hj12 : j ≤ 12 := by simpa using hj
    rw [hr8]
    constructor <;> (interval_cases j <;> norm_num [jsAbs, colPos])
  have hfilterA : ([exSibAsset].filter
      (fun a => a.id ≠ "d" ∧ ¬ (a.isHidden.getD false))) = [exSibAsset] := rfl
  have hsibA : ∀ t ∈ [exSibAsset].filter
        (fun a => a.id ≠ "d" ∧ ¬ (a.isHidden.getD false)),
      1 ≤ jsAbs ((8 : ℚ) - t.x) ∧ 1 ≤ jsAbs ((8 : ℚ) + 4 / 2 - (t.x + t.width / 2)) := by
    rw [hfilterA]
    intro t ht
    rw [List.mem_singleton] at ht
    subst ht
    constructor <;> norm_num [jsAbs, exSibAsset]
  have hresA := findSnappingPoints_grid_snap false [exSibAsset] "d" ⟨8, 30, 4, 10⟩ 1
    (by decide) hleftA hrightA (by norm_num [jsAbs]) (by norm_num [jsAbs])
    (by norm_num [jsAbs]) hsibA (fun h => by simp at h)
  have hleftB : jsAbs (jsRound (108 : ℚ) - colPos 13) < 1 := by
    rw [hr108]
    norm_num [jsAbs, colPos]
  have hrightB : ∀ j, j ≤ (if (true : Bool) then 24 else 12) →
      1 ≤ jsAbs (jsRound (108 : ℚ) + 4 - colPos j) ∧
      1 ≤ jsAbs (colPos 13 + 4 - colPos j) := by
    intro j hj
    have hj24 : j ≤ 24 := by simpa using hj
    rw [hr108]
    constructor <;> (interval_cases j <;> norm_num [jsAbs, colPos])
  have hresB := findSnappingPoints_grid_snap true [] "d" ⟨108, 30, 4, 10⟩ 13
    (by decide) hleftB hrightB (by norm_num [jsAbs]) (by norm_num [jsAbs])
    (by norm_num [jsAbs]) (by intro t ht; simp at ht) (fun _ => by norm_num [jsAbs])
  exact ⟨hleftA, by norm_num [jsAbs, exSibAsset], hresA.1, hresA.2, hresB.1, hresB.2⟩

/-- Is the value neither null nor undefined (a plain member access on
it cannot throw)? -/
def notNullish : JSVal → Bool
  | .null => false
  | .undefined => false
  | _ => true

/-- The assets field is harmless: falsy, or an array with no null or
undefined rows. -/
def goodAssetsField : JSVal → Bool
  | .arr xs => xs.all notNullish
  | v => !v.truthy

/-- Can the value be spread into an array literal (arrays and strings
are iterable)? -/
def isIterableVal : JSVal → Bool
  | .arr _ => true
  | .str _ => true
  | _ => false

/-- Property reads on a non-nullish value never throw. -/
theorem jsGet_ok_of_notNullish (x : JSVal) (hx : notNullish x = true) (k : String) :
    ∃ y, x.get k = .ok y := by
  cases x <;> simp [notNullish] at hx ⊢ <;> simp [JSVal.get]

/-- Synthesizing a layout item from a non-nullish asset row succeeds. -/
theorem assetToLayoutItem_ok (x : JSVal) (hx : notNullish x = true) :
    ∃ y, assetToLayoutItem x = .ok y := by
  cases x <;> simp [notNullish] at hx <;> exact ⟨_, rfl⟩

/-- Mapping the layout-item synthesis over non-nullish rows succeeds. -/
theorem mapExcept_assetToLayoutItem_ok (rows : List JSVal)
    (h : ∀ x ∈ rows, notNullish x = true) :
    ∃ l, mapExcept assetToLayoutItem rows = .ok l := by
  induction rows with
  | nil => exact ⟨[], rfl⟩
  | cons x t ih =>
      obtain ⟨y, hy⟩ := assetToLayoutItem_ok x (h x (by simp))
      obtain ⟨l, hl⟩ := ih (fun z hz => h z (by simp [hz]))
      exact ⟨y :: l, by simp [mapExcept, hy, hl]⟩

/-- Mapping the legacy row conversion over non-nullish rows succeeds. -/
theorem legacyAssetRow_ok (x : JSVal) (hx : notNullish x = true) :
    ∃ y, legacyAssetRow x = .ok y := by
  cases x <;> simp [notNullish] at hx <;> exact ⟨_, rfl⟩

/-- Mapping the legacy row conversion over a whole row list succeeds. -/
theorem mapExcept_legacyAssetRow_ok (rows : List JSVal)
    (h : ∀ x ∈ rows, notNullish x = true) :
    ∃ l, mapExcept legacyAssetRow rows = .ok l := by
  induction rows with
  | nil => exact ⟨[], rfl⟩
  | cons x t ih =>
      obtain ⟨y, hy⟩ := legacyAssetRow_ok x (h x (by simp))
      obtain ⟨l, hl⟩ := ih (fun z hz => h z (by simp [hz]))
      exact ⟨y :: l, by simp [mapExcept, hy, hl]⟩

/-- Spreading an iterable value succeeds. -/
theorem spreadIterable_ok (v : JSVal) (hv : isIterableVal v = true) :
    ∃ t, spreadIterable v = .ok t := by
  cases v <;> simp [isIterableVal] at hv <;> exact ⟨_, rfl⟩

/-- A good assets field never breaks the unified fallback synthesis. -/
theorem finalLayoutArrayOf_ok (parse : String → Option JSVal)
    (p : List (String × JSVal))
    (hassets : goodAssetsField (recField p "assets") = true) :
    ∃ l, finalLayoutArrayOf parse p = .ok l := by
  unfold finalLayoutArrayOf
  split
  · next hcond =>
      cases hv : recField p "assets" with
      | arr rows =>
          rw [hv] at hassets
          exact mapExcept_assetToLayoutItem_ok rows
            (by simpa [goodAssetsField, List.all_eq_true] using hassets)
      | _ =>
          rw [hv] at hcond hassets
          simp_all [goodAssetsField, JSVal.truthy, assetsLengthPositive]
  · exact ⟨_, rfl⟩

/-- A good assets field never breaks the legacy row mapping. -/
theorem legacyBranch_ok (toNum : String → Option ℚ) (p : List (String × JSVal))
    (hassets : goodAssetsField (recField p "assets") = true) :
    ∃ page, legacyBranch toNum p = .ok page := by
  unfold legacyBranch
  have hrows : ∃ rows, jsArrOrEmpty (recField p "assets") = .ok rows ∧
      ∀ x ∈ rows, notNullish x = true := by
    cases hv : recField p "assets" with
    | arr xs =>
        rw [hv] at hassets
        exact ⟨xs, by simp [jsArrOrEmpty, JSVal.truthy],
          by simpa [goodAssetsField, List.all_eq_true] using hassets⟩
    | _ =>
        rw [hv] at hassets
        simp [goodAssetsField] at hassets
        refine ⟨[], ?_, by simp⟩
        simp_all [jsArrOrEmpty]
  obtain ⟨rows, hr, hnn⟩ := hrows
  obtain ⟨l, hl⟩ := mapExcept_legacyAssetRow_ok rows hnn
  simp only [hr, hl]
  exact ⟨_, rfl⟩

/-- C7 (amended): normalizePageData never throws provided the raw
record's assets field is falsy or an array without null/undefined
rows, and the parsed text_layers value is an array or a string; the
layout_config, layout_json and content fields may hold any value of
any type (malformed JSON strings included).  Without the provisos the
source can throw a TypeError; see the counterexample. -/
theorem normalizePageData_total (parse : String → Option JSVal)
    (toNum : String → Option ℚ) (gen : ℕ → String) (p : List (String × JSVal))
    (hassets : goodAssetsField (recField p "assets") = true)
    (htext : isIterableVal (textArrayOf parse p) = true) :
    ∃ page, normalizePageData parse toNum gen p = .ok page := by
  unfold normalizePageData
  split
  · unfold unifiedBranch
    obtain ⟨l, hl⟩ := finalLayoutArrayOf_ok parse p hassets
    obtain ⟨t, ht⟩ := spreadIterable_ok (textArrayOf parse p) htext
    simp only [hl, ht]
    exact ⟨_, rfl⟩
  · exact legacyBranch_ok toNum p hassets

/-- Counterexample to C7 as stated: a record whose assets column holds
the string "x" is classified as legacy, and calling .map on the string
(p.assets || []).map throws a TypeError, so normalizePageData does not
return a page for every malformed record. -/
theorem normalizePageData_throws :
    (normalizePageData (fun _ => none) (fun _ => none) (fun _ => "g")
      [("assets", JSVal.str "x")]).isOk = false := by
  rfl

/-- Witness for the amended C7: the empty record satisfies both
provisos and normalizes successfully to the worst-case page with an
empty layout (no layout boxes, no text layers, no legacy assets). -/
theorem normalizePageData_total_witness :
    goodAssetsField (recField [] "assets") = true ∧
    isIterableVal (textArrayOf (fun _ => none) []) = true ∧
    (∃ page, normalizePageData (fun _ => none) (fun _ => none) (fun _ => "g") []
      = .ok page) ∧
    ((normalizePageData (fun _ => none) (fun _ => none) (fun _ => "g") []).toOption.map
        (fun page => (page.layoutConfig.length, page.textLayers.length,
          page.assets.length))
      = some (0, 0, 0)) :=
  ⟨rfl, rfl,
   normalizePageData_total (fun _ => none) (fun _ => none) (fun _ => "g") [] rfl rfl,
   rfl⟩
